import Mathlib

/-!
Verification development for the scrappy resource-resolution engine.

Each definition below is a shallow embedding of a function from the
repository sources, with a comment naming the source file and lines it
was translated from.  Host-environment primitives that the code calls
(the browser URL parser, the network, the persistent storage) are
modelled as explicit oracle parameters; everything else is translated
line by line.  Timestamps are modelled as Int (JavaScript number
arithmetic on Date.now values is exact integer arithmetic in the
ranges involved).
-/

/-- Error codes, from core/types.js (utils history file lines 643-664). -/
inductive ErrorCode where
  | NETWORK_FAILURE
  | FETCH_TIMEOUT
  | CORS_BLOCKED
  | PERMISSION_DENIED
  | TAB_ACCESS_DENIED
  | SERIALIZATION_FAILED
  | RESOURCE_TOO_LARGE
  | INVALID_FORMAT
  | CIRCUIT_OPEN
  | UNKNOWN_ERROR
  | VALIDATION_ERROR
deriving DecidableEq, Repr

/-- Result shape of core/types.js: `Ok(value)` / `Err(error, code)`.
The error is carried as its message string. -/
inductive FetchOutcome (α : Type) where
  | ok (value : α)
  | err (errMsg : String) (errorCode : ErrorCode)
deriving DecidableEq, Repr

/-- Whether an outcome is a success (`result.ok` in the JS). -/
def FetchOutcome.isOk {α : Type} : FetchOutcome α → Bool
  | .ok _ => true
  | .err _ _ => false

-- ============================================================
-- String helpers.  Lean's String.Pos based primitives do not reduce
-- in the kernel, so the JS string operations used by the sources are
-- implemented over the underlying character lists.
-- ============================================================

/-- JS `s.startsWith(p)`. -/
def strStartsWith (s p : String) : Bool := decide (s.data.take p.data.length = p.data)

/-- JS `s.trim()` (whitespace from both ends). -/
def strTrim (s : String) : String :=
  ⟨((s.data.dropWhile Char.isWhitespace).reverse.dropWhile Char.isWhitespace).reverse⟩

/-- JS `s.split(c)` for a single-character separator. -/
def strSplitOn (c : Char) (s : String) : List String :=
  (s.data.splitOn c).map (fun l => (⟨l⟩ : String))

/-- JS `s.split(/\s+/)` applied to an already-trimmed string:
maximal runs of non-whitespace characters. -/
def strWords (s : String) : List String :=
  ((s.data.splitBy (fun a b => a.isWhitespace = b.isWhitespace)).filter
    (fun l => !(l.any Char.isWhitespace))).map (fun l => (⟨l⟩ : String))

/-- JS `parts.join(sep)`. -/
def strJoin (sep : String) (parts : List String) : String :=
  ⟨List.intercalate sep.data (parts.map String.data)⟩

-- ============================================================
-- Fetch orchestrator, unnamed/part_005 (resource-fetcher).
-- ============================================================

/-- Helper for `unique`: keeps the first occurrence of each element,
carrying the set of keys already seen (the JS `Set`). -/
def uniqueGo (seen : List String) : List String → List String
  | [] => []
  | u :: rest => if u ∈ seen then uniqueGo seen rest else u :: uniqueGo (u :: seen) rest

/-- Deduplication keeping first occurrences: `[...new Set(urls)]` at
unnamed/part_005 line 231, equally the `unique` utility of core/utils.js
lines 164-172. -/
def unique (urls : List String) : List String := uniqueGo [] urls

/-- Body of `fetchResources` (unnamed/part_005 lines 229-253): drive the
per-URL fetch over the deduplicated list, setting `results[url]` once per
URL.  The per-URL fetch is stateful (cache, breakers, dead letter queue),
so it is passed as a state-transformer oracle; the association list
records the URL → outcome map.  The JS runs the iterations under a
concurrency cap of 5, which permutes completion order but not which keys
are set, each iteration writing only its own (distinct) key. -/
def runFetchAll {σ α : Type} (fetchOne : σ → String → σ × FetchOutcome α) :
    σ → List String → σ × List (String × FetchOutcome α)
  | st, [] => (st, [])
  | st, u :: rest =>
    let p := fetchOne st u
    let q := runFetchAll fetchOne p.1 rest
    (q.1, (u, p.2) :: q.2)

/-- `fetchResources(urls, config, onProgress)`, unnamed/part_005 lines
229-253: deduplicate, then fetch each distinct URL once. -/
def fetchResources {σ α : Type} (fetchOne : σ → String → σ × FetchOutcome α)
    (st : σ) (urls : List String) : σ × List (String × FetchOutcome α) :=
  runFetchAll fetchOne st (unique urls)

theorem mem_uniqueGo (seen : List String) (l : List String) (u : String) :
    u ∈ uniqueGo seen l ↔ (u ∈ l ∧ u ∉ seen) := by
  induction l generalizing seen with
  | nil => simp [uniqueGo]
  | cons v rest ih =>
    simp only [uniqueGo]
    by_cases hv : v ∈ seen
    · rw [if_pos hv, ih]
      simp only [List.mem_cons]
      by_cases huv : u = v
      · subst huv; tauto
      · tauto
    · rw [if_neg hv]
      simp only [List.mem_cons, ih, List.mem_cons]
      by_cases huv : u = v
      · subst huv; tauto
      · tauto

theorem nodup_uniqueGo (seen : List String) (l : List String) :
    (uniqueGo seen l).Nodup := by
  induction l generalizing seen with
  | nil => simp [uniqueGo]
  | cons v rest ih =>
    simp only [uniqueGo]
    by_cases hv : v ∈ seen
    · rw [if_pos hv]; exact ih seen
    · rw [if_neg hv]
      refine List.nodup_cons.mpr ⟨?_, ih (v :: seen)⟩
      intro hc
      exact ((mem_uniqueGo _ _ _).mp hc).2 (List.mem_cons_self _ _)

theorem runFetchAll_keys {σ α : Type} (fetchOne : σ → String → σ × FetchOutcome α)
    (st : σ) (l : List String) :
    ((runFetchAll fetchOne st l).2).map Prod.fst = l := by
  induction l generalizing st with
  | nil => rfl
  | cons u rest ih => simp [runFetchAll, ih]

/-- Claim C1: for every input URL list (possibly containing duplicates)
and every per-URL fetch behaviour, the association list returned by
`fetchResources` has as its keys, in order and without repetition,
exactly the distinct input URLs: one FetchOutcome per distinct URL. -/
theorem fetchResources_one_outcome_per_distinct_url
    {σ α : Type} (fetchOne : σ → String → σ × FetchOutcome α)
    (st : σ) (urls : List String) :
    ((fetchResources fetchOne st urls).2).map Prod.fst = unique urls ∧
    (unique urls).Nodup ∧
    (∀ u, u ∈ unique urls ↔ u ∈ urls) := by
  refine ⟨runFetchAll_keys fetchOne st (unique urls), nodup_uniqueGo [] urls, fun u => ?_⟩
  simpa using mem_uniqueGo [] urls u

-- ============================================================
-- Origin circuit breaker, src/core/circuit-breaker.js.
-- ============================================================

/-- Options of createCircuitBreaker, circuit-breaker.js lines 33-40. -/
structure CircuitBreakerOptions where
  failureThreshold : Nat
  successThreshold : Nat
  timeout : Int
  monitorWindow : Int
deriving Repr

/-- The three circuit states, circuit-breaker.js line 14. -/
inductive CircuitState where
  | CLOSED
  | OPEN
  | HALF_OPEN
deriving DecidableEq, Repr

/-- Encapsulated mutable state of one breaker, circuit-breaker.js
lines 42-47: state, failure timestamps, half-open success count, last
failure record (message and time), time the breaker opened. -/
structure CircuitBreaker where
  state : CircuitState
  failures : List Int
  successes : Nat
  lastFailure : Option (String × Int)
  openedAt : Option Int
deriving DecidableEq, Repr

/-- A freshly created breaker (circuit-breaker.js lines 43-47). -/
def initialBreaker : CircuitBreaker :=
  { state := .CLOSED, failures := [], successes := 0, lastFailure := none, openedAt := none }

/-- cleanOldFailures, circuit-breaker.js lines 49-52. -/
def cleanOldFailures (cfg : CircuitBreakerOptions) (now : Int) (b : CircuitBreaker) :
    CircuitBreaker :=
  { b with failures := b.failures.filter (fun t => now - t < cfg.monitorWindow) }

/-- transitionTo, circuit-breaker.js lines 65-83 (the onStateChange
callback only logs and is not part of the state). -/
def transitionTo (now : Int) (newState : CircuitState) (b : CircuitBreaker) : CircuitBreaker :=
  match newState with
  | .OPEN => { b with state := .OPEN, openedAt := some now, successes := 0 }
  | .CLOSED => { b with state := .CLOSED, failures := [], successes := 0, openedAt := none }
  | .HALF_OPEN => { b with state := .HALF_OPEN, successes := 0 }

/-- shouldAttempt, circuit-breaker.js lines 85-98.  Returns the updated
breaker together with the Boolean answer.  In the OPEN branch the JS
computes `Date.now() - openedAt`; a null openedAt coerces to 0, which
the getD 0 mirrors. -/
def shouldAttempt (cfg : CircuitBreakerOptions) (now : Int) (b : CircuitBreaker) :
    CircuitBreaker × Bool :=
  match b.state with
  | .CLOSED => (b, true)
  | .OPEN =>
    let elapsed := now - (b.openedAt.getD 0)
    if cfg.timeout ≤ elapsed then (transitionTo now .HALF_OPEN b, true) else (b, false)
  | .HALF_OPEN => (b, true)

/-- recordSuccess, circuit-breaker.js lines 100-108. -/
def recordSuccess (cfg : CircuitBreakerOptions) (now : Int) (b : CircuitBreaker) :
    CircuitBreaker :=
  match b.state with
  | .HALF_OPEN =>
    let b1 := { b with successes := b.successes + 1 }
    if cfg.successThreshold ≤ b1.successes then transitionTo now .CLOSED b1 else b1
  | _ => b

/-- recordFailure, circuit-breaker.js lines 110-129. -/
def recordFailure (cfg : CircuitBreakerOptions) (now : Int) (errMsg : String)
    (b : CircuitBreaker) : CircuitBreaker :=
  let b0 := { b with lastFailure := some (errMsg, now) }
  match b0.state with
  | .HALF_OPEN => transitionTo now .OPEN b0
  | .CLOSED =>
    let b1 := cleanOldFailures cfg now b0
    let b2 := { b1 with failures := b1.failures ++ [now] }
    if cfg.failureThreshold ≤ b2.failures.length then transitionTo now .OPEN b2 else b2
  | .OPEN => b0

/-- execute, circuit-breaker.js lines 137-158.  The supplied async
operation is modelled by its outcome: `Except.ok v` when it resolves
with v, `Except.error e` when it throws e.  The returned Bool records
whether the operation was invoked at all. -/
def execute {α : Type} (cfg : CircuitBreakerOptions) (now : Int) (op : Except String α)
    (b : CircuitBreaker) : CircuitBreaker × FetchOutcome α × Bool :=
  let p := shouldAttempt cfg now b
  if p.2 then
    match op with
    | .ok v => (recordSuccess cfg now p.1, .ok v, true)
    | .error e => (recordFailure cfg now e p.1, .err e .NETWORK_FAILURE, true)
  else
    (p.1, .err "Circuit breaker is OPEN" .CIRCUIT_OPEN, false)

/-- A sequence of recordFailure calls, each given as (time, message). -/
def applyFailures (cfg : CircuitBreakerOptions) (ts : List (Int × String))
    (b : CircuitBreaker) : CircuitBreaker :=
  ts.foldl (fun b p => recordFailure cfg p.1 p.2 b) b

/-- A sequence of recordSuccess calls at the given times. -/
def applySuccesses (cfg : CircuitBreakerOptions) (ts : List Int)
    (b : CircuitBreaker) : CircuitBreaker :=
  ts.foldl (fun b t => recordSuccess cfg t b) b

theorem recordFailure_open (cfg : CircuitBreakerOptions) (now : Int) (msg : String)
    (b : CircuitBreaker) (hb : b.state = .OPEN) :
    recordFailure cfg now msg b = { b with lastFailure := some (msg, now) } := by
  simp only [recordFailure]
  split
  · next h => rw [show b.state = .HALF_OPEN from h] at hb; cases hb
  · next h => rw [show b.state = .CLOSED from h] at hb; cases hb
  · rfl

theorem applyFailures_open (cfg : CircuitBreakerOptions) (ts : List (Int × String))
    (b : CircuitBreaker) (hb : b.state = .OPEN) :
    (applyFailures cfg ts b).state = .OPEN := by
  induction ts generalizing b with
  | nil => exact hb
  | cons t rest ih =>
    simp only [applyFailures, List.foldl_cons]
    exact ih _ (by rw [recordFailure_open cfg t.1 t.2 b hb]; exact hb)

theorem applyFailures_cons (cfg : CircuitBreakerOptions) (t : Int × String)
    (rest : List (Int × String)) (b : CircuitBreaker) :
    applyFailures cfg (t :: rest) b = applyFailures cfg rest (recordFailure cfg t.1 t.2 b) := rfl

theorem recordFailure_closed_step (cfg : CircuitBreakerOptions) (lo now : Int) (msg : String)
    (b : CircuitBreaker) (hb : b.state = .CLOSED)
    (hpre : ∀ x ∈ b.failures, lo ≤ x)
    (hwin : now < lo + cfg.monitorWindow) :
    recordFailure cfg now msg b =
      (if cfg.failureThreshold ≤ b.failures.length + 1 then
        { b with
          state := .OPEN
          failures := b.failures ++ [now]
          successes := 0
          lastFailure := some (msg, now)
          openedAt := some now }
      else
        { b with failures := b.failures ++ [now], lastFailure := some (msg, now) }) := by
  obtain ⟨st, fl, sc, lf, oa⟩ := b
  simp only at hb hpre
  subst hb
  have hfilter : fl.filter (fun t => decide (now - t < cfg.monitorWindow)) = fl := by
    apply List.filter_eq_self.mpr
    intro x hx
    have := hpre x hx
    simp only [decide_eq_true_eq]
    omega
  simp only [recordFailure, cleanOldFailures, transitionTo, hfilter, List.length_append,
    List.length_cons, List.length_nil]

theorem applyFailures_closed (cfg : CircuitBreakerOptions) (lo : Int)
    (ts : List (Int × String)) (b : CircuitBreaker)
    (hb : b.state = .CLOSED)
    (hlt : b.failures.length < cfg.failureThreshold)
    (hpre : ∀ x ∈ b.failures, lo ≤ x)
    (hts : ∀ p ∈ ts, lo ≤ p.1 ∧ p.1 < lo + cfg.monitorWindow) :
    (applyFailures cfg ts b).state = .OPEN ∨
    ((applyFailures cfg ts b).state = .CLOSED ∧
      (applyFailures cfg ts b).failures.length = b.failures.length + ts.length ∧
      (applyFailures cfg ts b).failures.length < cfg.failureThreshold) := by
  induction ts generalizing b with
  | nil => exact Or.inr ⟨hb, by simp [applyFailures], by simpa [applyFailures] using hlt⟩
  | cons t rest ih =>
    have ht := hts t (List.mem_cons_self _ _)
    have hstep := recordFailure_closed_step cfg lo t.1 t.2 b hb hpre ht.2
    rw [applyFailures_cons, hstep]
    by_cases hth : cfg.failureThreshold ≤ b.failures.length + 1
    · rw [if_pos hth]
      exact Or.inl (applyFailures_open cfg rest _ rfl)
    · rw [if_neg hth]
      have hres := ih { b with failures := b.failures ++ [t.1], lastFailure := some (t.2, t.1) }
        hb (by simp only [List.length_append, List.length_cons, List.length_nil]; omega)
        (by
          intro x hx
          simp only [List.mem_append, List.mem_singleton] at hx
          rcases hx with hx | hx
          · exact hpre x hx
          · rw [hx]; exact ht.1)
        (fun p hp => hts p (List.mem_cons_of_mem _ hp))
      rcases hres with h | ⟨h1, h2, h3⟩
      · exact Or.inl h
      · refine Or.inr ⟨h1, ?_, h3⟩
        rw [h2]
        simp only [List.length_append, List.length_cons, List.length_nil]
        omega

theorem execute_open_before_timeout {α : Type} (cfg : CircuitBreakerOptions) (now : Int)
    (op : Except String α) (b : CircuitBreaker) (tOpen : Int)
    (hb : b.state = .OPEN) (ho : b.openedAt = some tOpen) (hlt : now - tOpen < cfg.timeout) :
    execute cfg now op b = (b, .err "Circuit breaker is OPEN" .CIRCUIT_OPEN, false) := by
  have hsa : shouldAttempt cfg now b = (b, false) := by
    simp only [shouldAttempt]
    split
    · next h => rw [show b.state = .CLOSED from h] at hb; cases hb
    · next _ =>
      rw [ho]
      simp only [Option.getD_some]
      rw [if_neg (by omega)]
    · next h => rw [show b.state = .HALF_OPEN from h] at hb; cases hb
  simp [execute, hsa]

/-- Claim C3: starting from a CLOSED breaker with no recorded failures,
once failureThreshold failures are recorded at times inside one
monitorWindow (all in the interval [lo, lo + monitorWindow)), the
breaker state is OPEN; and as long as the timeout has not elapsed since
it opened, execute returns an Err with code CIRCUIT_OPEN, leaves the
breaker untouched, and does not invoke the supplied operation. -/
theorem circuit_opens_and_rejects_before_timeout {α : Type}
    (cfg : CircuitBreakerOptions) (lo now tOpen : Int) (ts : List (Int × String))
    (b : CircuitBreaker) (op : Except String α)
    (hb : b.state = .CLOSED) (hf : b.failures = [])
    (hth : 1 ≤ cfg.failureThreshold)
    (hts : ∀ p ∈ ts, lo ≤ p.1 ∧ p.1 < lo + cfg.monitorWindow)
    (hlen : cfg.failureThreshold ≤ ts.length)
    (ho : (applyFailures cfg ts b).openedAt = some tOpen)
    (hnow : now - tOpen < cfg.timeout) :
    (applyFailures cfg ts b).state = .OPEN ∧
    execute cfg now op (applyFailures cfg ts b) =
      (applyFailures cfg ts b, .err "Circuit breaker is OPEN" .CIRCUIT_OPEN, false) := by
  have hopen : (applyFailures cfg ts b).state = .OPEN := by
    rcases applyFailures_closed cfg lo ts b hb (by rw [hf]; simpa using hth)
      (by rw [hf]; intro x hx; cases hx) hts with h | ⟨_, h2, h3⟩
    · exact h
    · rw [h2, hf] at h3
      simp only [List.length_nil, Nat.zero_add] at h3
      omega
  exact ⟨hopen, execute_open_before_timeout cfg now op _ tOpen hopen ho hnow⟩

/-- Witness for C3 at a concrete input: three failures at times 0, 1, 2
with threshold 3 and window 60000 open the breaker, and an execute call
at time 100 is rejected with CIRCUIT_OPEN without running the operation. -/
theorem circuit_opens_and_rejects_before_timeout_witness :
    (applyFailures ⟨3, 2, 30000, 60000⟩ [(0, "e1"), (1, "e2"), (2, "e3")] initialBreaker).state
        = .OPEN ∧
    execute ⟨3, 2, 30000, 60000⟩ 100 (Except.ok (42 : Nat))
        (applyFailures ⟨3, 2, 30000, 60000⟩ [(0, "e1"), (1, "e2"), (2, "e3")] initialBreaker) =
      (applyFailures ⟨3, 2, 30000, 60000⟩ [(0, "e1"), (1, "e2"), (2, "e3")] initialBreaker,
        .err "Circuit breaker is OPEN" .CIRCUIT_OPEN, false) :=
  circuit_opens_and_rejects_before_timeout ⟨3, 2, 30000, 60000⟩ 0 100 2
    [(0, "e1"), (1, "e2"), (2, "e3")] initialBreaker (Except.ok 42)
    rfl rfl (by decide) (by decide) (by decide) (by decide) (by decide)

theorem recordSuccess_open (cfg : CircuitBreakerOptions) (now : Int) (b : CircuitBreaker)
    (hb : b.state = .OPEN) : recordSuccess cfg now b = b := by
  obtain ⟨st, fl, sc, lf, oa⟩ := b
  simp only at hb
  subst hb
  rfl

theorem recordSuccess_closed (cfg : CircuitBreakerOptions) (now : Int) (b : CircuitBreaker)
    (hb : b.state = .CLOSED) : recordSuccess cfg now b = b := by
  obtain ⟨st, fl, sc, lf, oa⟩ := b
  simp only at hb
  subst hb
  rfl

theorem applySuccesses_closed (cfg : CircuitBreakerOptions) (ts : List Int)
    (b : CircuitBreaker) (hb : b.state = .CLOSED) : applySuccesses cfg ts b = b := by
  induction ts with
  | nil => rfl
  | cons t rest ih =>
    show applySuccesses cfg rest (recordSuccess cfg t b) = b
    rw [recordSuccess_closed cfg t b hb]
    exact ih

theorem recordFailure_half_open (cfg : CircuitBreakerOptions) (now : Int) (msg : String)
    (b : CircuitBreaker) (hb : b.state = .HALF_OPEN) :
    (recordFailure cfg now msg b).state = .OPEN := by
  obtain ⟨st, fl, sc, lf, oa⟩ := b
  simp only at hb
  subst hb
  rfl

theorem applySuccesses_half_open (cfg : CircuitBreakerOptions) (ts : List Int)
    (b : CircuitBreaker) (hb : b.state = .HALF_OPEN)
    (hs : b.successes < cfg.successThreshold) :
    (applySuccesses cfg ts b).state =
      (if cfg.successThreshold ≤ b.successes + ts.length then .CLOSED else .HALF_OPEN) := by
  induction ts generalizing b with
  | nil =>
    simp only [applySuccesses, List.foldl_nil, List.length_nil, Nat.add_zero]
    rw [if_neg (by omega)]
    exact hb
  | cons t rest ih =>
    obtain ⟨st, fl, sc, lf, oa⟩ := b
    simp only at hb hs
    subst hb
    show (applySuccesses cfg rest (recordSuccess cfg t ⟨.HALF_OPEN, fl, sc, lf, oa⟩)).state = _
    by_cases hth : cfg.successThreshold ≤ sc + 1
    · have hrec : recordSuccess cfg t ⟨.HALF_OPEN, fl, sc, lf, oa⟩ =
          ⟨.CLOSED, [], 0, lf, none⟩ := by
        simp only [recordSuccess, transitionTo]
        rw [if_pos hth]
      rw [hrec, applySuccesses_closed cfg rest _ rfl]
      simp only [List.length_cons]
      rw [if_pos (by omega)]
    · have hrec : recordSuccess cfg t ⟨.HALF_OPEN, fl, sc, lf, oa⟩ =
          ⟨.HALF_OPEN, fl, sc + 1, lf, oa⟩ := by
        simp only [recordSuccess]
        rw [if_neg hth]
      rw [hrec, ih ⟨.HALF_OPEN, fl, sc + 1, lf, oa⟩ rfl (by simp only; omega)]
      simp only [List.length_cons]
      exact if_congr (by omega) rfl rfl

/-- Claim C4: an OPEN breaker whose timeout has not yet elapsed is not
moved to HALF_OPEN by any operation (shouldAttempt answers false and
leaves it OPEN, recordSuccess is a no-op, recordFailure keeps it OPEN,
execute rejects); and from a fresh HALF_OPEN breaker (success counter 0),
a run of consecutive recorded successes reaches CLOSED exactly when it
is at least successThreshold long, while any failure recorded in
HALF_OPEN returns the breaker to OPEN. -/
theorem breaker_half_open_only_after_timeout_and_close_threshold {α : Type}
    (cfg : CircuitBreakerOptions) (now tOpen now2 : Int) (msg msg2 : String)
    (op : Except String α) (ss : List Int) (b b2 : CircuitBreaker)
    (hb : b.state = .OPEN) (ho : b.openedAt = some tOpen) (hnow : now - tOpen < cfg.timeout)
    (hb2 : b2.state = .HALF_OPEN) (hs : b2.successes = 0)
    (hth : 1 ≤ cfg.successThreshold) :
    shouldAttempt cfg now b = (b, false) ∧
    recordSuccess cfg now b = b ∧
    (recordFailure cfg now msg b).state = .OPEN ∧
    execute cfg now op b = (b, .err "Circuit breaker is OPEN" .CIRCUIT_OPEN, false) ∧
    (applySuccesses cfg ss b2).state =
      (if cfg.successThreshold ≤ ss.length then .CLOSED else .HALF_OPEN) ∧
    (recordFailure cfg now2 msg2 b2).state = .OPEN := by
  have hsa : shouldAttempt cfg now b = (b, false) := by
    obtain ⟨st, fl, sc, lf, oa⟩ := b
    simp only at hb ho
    subst hb
    subst ho
    simp only [shouldAttempt, Option.getD_some]
    rw [if_neg (by omega)]
  refine ⟨hsa, recordSuccess_open cfg now b hb, ?_, ?_, ?_, recordFailure_half_open cfg now2 msg2 b2 hb2⟩
  · rw [recordFailure_open cfg now msg b hb]
    exact hb
  · exact execute_open_before_timeout cfg now op b tOpen hb ho hnow
  · have := applySuccesses_half_open cfg ss b2 hb2 (by omega)
    rw [this, hs]
    exact if_congr (by omega) rfl rfl

/-- Witness for C4 at concrete inputs: a breaker opened at time 0 with a
30000ms timeout, probed at time 100; and a fresh HALF_OPEN breaker with
successThreshold 2 closed by exactly two successes. -/
theorem breaker_half_open_only_after_timeout_and_close_threshold_witness :
    shouldAttempt ⟨3, 2, 30000, 60000⟩ 100 ⟨.OPEN, [0], 0, none, some 0⟩ =
      (⟨.OPEN, [0], 0, none, some 0⟩, false) ∧
    recordSuccess ⟨3, 2, 30000, 60000⟩ 100 ⟨.OPEN, [0], 0, none, some 0⟩ =
      ⟨.OPEN, [0], 0, none, some 0⟩ ∧
    (recordFailure ⟨3, 2, 30000, 60000⟩ 100 "boom" ⟨.OPEN, [0], 0, none, some 0⟩).state = .OPEN ∧
    execute ⟨3, 2, 30000, 60000⟩ 100 (Except.ok (7 : Nat)) ⟨.OPEN, [0], 0, none, some 0⟩ =
      (⟨.OPEN, [0], 0, none, some 0⟩, .err "Circuit breaker is OPEN" .CIRCUIT_OPEN, false) ∧
    (applySuccesses ⟨3, 2, 30000, 60000⟩ [40000, 40001] ⟨.HALF_OPEN, [], 0, none, some 0⟩).state =
      (if (2 : Nat) ≤ (2 : Nat) then .CLOSED else .HALF_OPEN) ∧
    (recordFailure ⟨3, 2, 30000, 60000⟩ 40000 "boom" ⟨.HALF_OPEN, [], 0, none, some 0⟩).state =
      .OPEN := by
  have h := breaker_half_open_only_after_timeout_and_close_threshold
    (⟨3, 2, 30000, 60000⟩ : CircuitBreakerOptions) 100 0 40000 "boom" "boom"
    (Except.ok (7 : Nat)) [40000, 40001] ⟨.OPEN, [0], 0, none, some 0⟩
    ⟨.HALF_OPEN, [], 0, none, some 0⟩ rfl rfl (by decide) rfl rfl (by decide)
  simpa using h

-- ============================================================
-- Circuit breaker registry, circuit-breaker.js lines 188-242.
-- ============================================================

/-- Result of the host `new URL(u)` constructor; the oracle
`urlParse : String → Option ParsedUrl` returns none when the
constructor throws. -/
structure ParsedUrl where
  href : String
  pathname : String
  hostname : String
deriving DecidableEq, Repr

/-- getDomain, circuit-breaker.js lines 191-197: the hostname of the
parsed URL, or the literal "unknown" when parsing throws. -/
def getDomain (urlParse : String → Option ParsedUrl) (url : String) : String :=
  match urlParse url with
  | some p => p.hostname
  | none => "unknown"

/-- Registry state, circuit-breaker.js line 189: the `breakers` Map in
insertion order.  Breaker instances are identified by their creation
index (`nextId` counts instances created so far), which stands for the
object identity the JS Map stores. -/
structure BreakerRegistry where
  breakers : List (String × Nat)
  nextId : Nat
deriving DecidableEq, Repr

/-- getBreaker, circuit-breaker.js lines 199-212: create the domain's
breaker on first request, then return the stored instance. -/
def getBreaker (urlParse : String → Option ParsedUrl) (reg : BreakerRegistry)
    (url : String) : BreakerRegistry × Nat :=
  let domain := getDomain urlParse url
  match reg.breakers.lookup domain with
  | some i => (reg, i)
  | none =>
    ({ breakers := reg.breakers ++ [(domain, reg.nextId)], nextId := reg.nextId + 1 },
      reg.nextId)

theorem lookup_append_of_none {α : Type} (l l2 : List (String × α)) (d : String)
    (h : l.lookup d = none) : (l ++ l2).lookup d = l2.lookup d := by
  induction l with
  | nil => rfl
  | cons p rest ih =>
    simp only [List.lookup, List.cons_append] at h ⊢
    rcases hdk : (d == p.1) with _ | _
    · rw [hdk] at h
      exact ih h
    · rw [hdk] at h
      cases h

/-- Claim C10: two URL strings the host URL parser rejects both map to
the domain key "unknown", and getBreaker hands back one and the same
breaker instance for them: the second call returns the identical
instance and leaves the registry unchanged. -/
theorem malformed_urls_share_one_breaker
    (urlParse : String → Option ParsedUrl) (reg : BreakerRegistry) (u1 u2 : String)
    (h1 : urlParse u1 = none) (h2 : urlParse u2 = none) :
    getDomain urlParse u1 = "unknown" ∧
    getDomain urlParse u2 = "unknown" ∧
    getBreaker urlParse (getBreaker urlParse reg u1).1 u2 =
      ((getBreaker urlParse reg u1).1, (getBreaker urlParse reg u1).2) := by
  have hd1 : getDomain urlParse u1 = "unknown" := by simp [getDomain, h1]
  have hd2 : getDomain urlParse u2 = "unknown" := by simp [getDomain, h2]
  refine ⟨hd1, hd2, ?_⟩
  simp only [getBreaker, hd1, hd2]
  rcases hl : reg.breakers.lookup "unknown" with _ | i
  · simp only
    rw [lookup_append_of_none _ _ _ hl]
    simp [List.lookup]
  · simp [hl]

/-- Witness for C10: with a parser that rejects everything and an empty
registry, both malformed strings get domain "unknown" and the same
breaker instance. -/
theorem malformed_urls_share_one_breaker_witness :
    getDomain (fun _ => none) "not a url" = "unknown" ∧
    getDomain (fun _ => none) "::::" = "unknown" ∧
    getBreaker (fun _ => none) (getBreaker (fun _ => none) ⟨[], 0⟩ "not a url").1 "::::" =
      ((getBreaker (fun _ => none) ⟨[], 0⟩ "not a url").1,
        (getBreaker (fun _ => none) ⟨[], 0⟩ "not a url").2) :=
  malformed_urls_share_one_breaker (fun _ => none) ⟨[], 0⟩ "not a url" "::::" rfl rfl

-- ============================================================
-- Resource cache, createResourceCache, core/utils.js history file
-- lines 887-946 (shared by core/memoize.js as imported in part_005).
-- ============================================================

/-- One cached value with its insertion timestamp (line 931). -/
structure CacheEntry (α : Type) where
  value : α
  timestamp : Int
deriving DecidableEq, Repr

/-- Cache state: the JS Map in insertion order. -/
structure ResourceCache (α : Type) where
  entries : List (String × CacheEntry α)
deriving DecidableEq, Repr

/-- JS `Map.prototype.set`: update in place when the key exists
(keeping its position), otherwise append. -/
def mapSet {α : Type} (l : List (String × α)) (k : String) (v : α) : List (String × α) :=
  match l with
  | [] => [(k, v)]
  | (k2, v2) :: rest => if k2 = k then (k, v) :: rest else (k2, v2) :: mapSet rest k v

/-- The eviction candidate of `set` (utils history lines 925-928):
`[...cache.entries()].sort((a,b) => a.timestamp - b.timestamp)[0]`,
the head of the stable ascending sort by timestamp. -/
def cacheOldest {α : Type} (l : List (String × CacheEntry α)) :
    Option (String × CacheEntry α) :=
  (List.insertionSort (fun a b => a.2.timestamp ≤ b.2.timestamp) l).head?

/-- get of createResourceCache, utils history lines 904-919: a present,
unexpired entry is a hit; a present expired entry is deleted and a miss;
an absent key is a miss.  The URL normalizer (lines 891-901) strips
tracking query parameters through the host URL parser and is passed as
an oracle. -/
def cacheGet {α : Type} (normalize : String → String) (ttl now : Int)
    (c : ResourceCache α) (url : String) : Option α × ResourceCache α :=
  let key := normalize url
  match c.entries.lookup key with
  | some entry =>
    if now - entry.timestamp ≤ ttl then (some entry.value, c)
    else (none, { entries := c.entries.filter (fun p => !(p.1 == key)) })
  | none => (none, c)

/-- set of createResourceCache, utils history lines 921-932: when the
cache is at capacity, delete the entry with the oldest timestamp, then
store the value under the normalized key with the current time. -/
def cacheSet {α : Type} (normalize : String → String) (maxSize : Nat) (now : Int)
    (c : ResourceCache α) (url : String) (value : α) : ResourceCache α :=
  let key := normalize url
  let entries1 :=
    if maxSize ≤ c.entries.length then
      match cacheOldest c.entries with
      | some oldest => c.entries.filter (fun p => !(p.1 == oldest.1))
      | none => c.entries
    else c.entries
  { entries := mapSet entries1 key ⟨value, now⟩ }

theorem filter_ne_of_key_not_mem {α : Type} (l : List (String × α)) (k : String)
    (h : k ∉ l.map Prod.fst) : l.filter (fun p => !(p.1 == k)) = l := by
  apply List.filter_eq_self.mpr
  intro p hp
  simp only [Bool.not_eq_eq_eq_not, Bool.not_true, beq_eq_false_iff_ne, ne_eq]
  intro hc
  exact h (hc ▸ List.mem_map_of_mem Prod.fst hp)

theorem length_filter_ne_key {α : Type} (l : List (String × α)) (k : String)
    (hnd : (l.map Prod.fst).Nodup) (hk : k ∈ l.map Prod.fst) :
    (l.filter (fun p => !(p.1 == k))).length + 1 = l.length := by
  induction l with
  | nil => cases hk
  | cons p rest ih =>
    simp only [List.map_cons, List.nodup_cons] at hnd
    rcases List.mem_cons.mp hk with hk1 | hk2
    · have hfilter : rest.filter (fun q => !(q.1 == k)) = rest :=
        filter_ne_of_key_not_mem rest k (hk1 ▸ hnd.1)
      rw [List.filter_cons, show (!(p.1 == k)) = false by simp [hk1.symm]]
      simp [hfilter]
    · have hne : p.1 ≠ k := fun hc => hnd.1 (hc ▸ hk2)
      have hih := ih hnd.2 hk2
      rw [List.filter_cons, show (!(p.1 == k)) = true by simp [hne]]
      simp only [if_pos, List.length_cons]
      omega

instance {α : Type} :
    IsTotal (String × CacheEntry α) (fun a b => a.2.timestamp ≤ b.2.timestamp) :=
  ⟨fun x y => le_total x.2.timestamp y.2.timestamp⟩

instance {α : Type} :
    IsTrans (String × CacheEntry α) (fun a b => a.2.timestamp ≤ b.2.timestamp) :=
  ⟨fun _ _ _ hab hbc => le_trans hab hbc⟩

/-- Claim C7: on a cache at capacity, set evicts exactly the single
entry carrying the oldest insertion timestamp before storing the new
value; and get on an entry older than the TTL answers a miss and
removes that entry. -/
theorem resource_cache_evicts_oldest_and_expires_on_read {α : Type}
    (normalize : String → String) (maxSize : Nat) (ttl now : Int)
    (c : ResourceCache α) (url url2 : String) (v : α) (e : CacheEntry α)
    (hcap : c.entries.length = maxSize) (hpos : 1 ≤ maxSize)
    (hnd : (c.entries.map Prod.fst).Nodup)
    (hlook : c.entries.lookup (normalize url2) = some e)
    (hexp : ttl < now - e.timestamp) :
    (∃ p, cacheOldest c.entries = some p ∧ p ∈ c.entries ∧
      (∀ q ∈ c.entries, p.2.timestamp ≤ q.2.timestamp) ∧
      cacheSet normalize maxSize now c url v =
        ⟨mapSet (c.entries.filter (fun q => !(q.1 == p.1))) (normalize url) ⟨v, now⟩⟩ ∧
      (c.entries.filter (fun q => !(q.1 == p.1))).length + 1 = maxSize) ∧
    cacheGet normalize ttl now c url2 =
      (none, ⟨c.entries.filter (fun q => !(q.1 == normalize url2))⟩) ∧
    (∀ q ∈ (cacheGet normalize ttl now c url2).2.entries, q.1 ≠ normalize url2) := by
  have hne : c.entries ≠ [] := by
    intro hc
    rw [hc] at hcap
    simp at hcap
    omega
  rcases hsl : List.insertionSort (fun a b : String × CacheEntry α =>
      a.2.timestamp ≤ b.2.timestamp) c.entries with _ | ⟨p0, tail⟩
  · exfalso
    have := List.perm_insertionSort (fun a b : String × CacheEntry α =>
      a.2.timestamp ≤ b.2.timestamp) c.entries
    rw [hsl] at this
    exact hne this.symm.eq_nil
  · have hperm := List.perm_insertionSort (fun a b : String × CacheEntry α =>
      a.2.timestamp ≤ b.2.timestamp) c.entries
    rw [hsl] at hperm
    have hsorted := List.sorted_insertionSort (fun a b : String × CacheEntry α =>
      a.2.timestamp ≤ b.2.timestamp) c.entries
    rw [hsl] at hsorted
    have hrel := (List.sorted_cons.mp hsorted).1
    have holdest : cacheOldest c.entries = some p0 := by
      simp only [cacheOldest, hsl, List.head?]
    have hp0mem : p0 ∈ c.entries := hperm.mem_iff.mp (List.mem_cons_self _ _)
    have hmin : ∀ q ∈ c.entries, p0.2.timestamp ≤ q.2.timestamp := by
      intro q hq
      have : q ∈ p0 :: tail := hperm.mem_iff.mpr hq
      rcases List.mem_cons.mp this with h | h
      · rw [h]
      · exact hrel q h
    refine ⟨⟨p0, holdest, hp0mem, hmin, ?_, ?_⟩, ?_, ?_⟩
    · simp only [cacheSet, hcap, le_refl, if_pos, holdest]
    · have : p0.1 ∈ c.entries.map Prod.fst := List.mem_map_of_mem Prod.fst hp0mem
      rw [length_filter_ne_key c.entries p0.1 hnd this, hcap]
    · simp only [cacheGet, hlook]
      rw [if_neg (by omega)]
    · intro q hq
      simp only [cacheGet, hlook] at hq
      rw [if_neg (by omega)] at hq
      simp only at hq
      have := List.of_mem_filter hq
      simpa [beq_eq_false_iff_ne] using this

/-- Witness for C7 at a concrete cache: capacity 2, both slots filled,
the entry at key "a" (timestamp 0) is the oldest and is also expired at
time 100 with a TTL of 10. -/
theorem resource_cache_evicts_oldest_and_expires_on_read_witness :
    (∃ p, cacheOldest (α := Nat) [("a", ⟨1, 0⟩), ("b", ⟨2, 5⟩)] = some p ∧
      p ∈ [("a", (⟨1, 0⟩ : CacheEntry Nat)), ("b", ⟨2, 5⟩)] ∧
      (∀ q ∈ [("a", (⟨1, 0⟩ : CacheEntry Nat)), ("b", ⟨2, 5⟩)],
        p.2.timestamp ≤ q.2.timestamp) ∧
      cacheSet (fun s => s) 2 100 ⟨[("a", ⟨1, 0⟩), ("b", ⟨2, 5⟩)]⟩ "c" 3 =
        ⟨mapSet ([("a", (⟨1, 0⟩ : CacheEntry Nat)), ("b", ⟨2, 5⟩)].filter
          (fun q => !(q.1 == p.1))) "c" ⟨3, 100⟩⟩ ∧
      ([("a", (⟨1, 0⟩ : CacheEntry Nat)), ("b", ⟨2, 5⟩)].filter
        (fun q => !(q.1 == p.1))).length + 1 = 2) ∧
    cacheGet (fun s => s) 10 100 (⟨[("a", ⟨1, 0⟩), ("b", ⟨2, 5⟩)]⟩ : ResourceCache Nat) "a" =
      (none, ⟨[("a", (⟨1, 0⟩ : CacheEntry Nat)), ("b", ⟨2, 5⟩)].filter
        (fun q => !(q.1 == "a"))⟩) ∧
    (∀ q ∈ (cacheGet (fun s => s) 10 100
        (⟨[("a", ⟨1, 0⟩), ("b", ⟨2, 5⟩)]⟩ : ResourceCache Nat) "a").2.entries,
      q.1 ≠ "a") :=
  resource_cache_evicts_oldest_and_expires_on_read (fun s => s) 2 10 100
    ⟨[("a", ⟨1, 0⟩), ("b", ⟨2, 5⟩)]⟩ "c" "a" 3 ⟨1, 0⟩
    rfl (by decide) (by decide) rfl (by decide)

-- ============================================================
-- Dead letter queue, unnamed/part_004 (dead-letter-queue.js).
-- ============================================================

/-- One dead letter entry, unnamed/part_004 lines 111-121.  The payload
is kept as an opaque string. -/
structure DeadLetterEntry where
  id : String
  type : String
  payload : String
  error : String
  errorCode : String
  source : String
  timestamp : Int
  retryCount : Nat
deriving DecidableEq, Repr

/-- DLQ options, unnamed/part_004 lines 39-44 (persistence is modelled
by the persist-outcome argument of enqueue). -/
structure DLQOptions where
  maxEntries : Nat
  retentionPeriod : Int
deriving Repr

/-- cleanExpired, unnamed/part_004 lines 52-55: keep entries whose
timestamp is strictly newer than `now - retentionPeriod`. -/
def cleanExpired (retentionPeriod now : Int) (entries : List DeadLetterEntry) :
    List DeadLetterEntry :=
  entries.filter (fun e => now - retentionPeriod < e.timestamp)

/-- enforceMaxSize, unnamed/part_004 lines 57-64: when over the cap,
stably sort by timestamp descending (the JS comparator
`(a, b) => b.timestamp - a.timestamp`) and keep the first maxEntries,
i.e. the most recent ones. -/
def enforceMaxSize (maxEntries : Nat) (entries : List DeadLetterEntry) :
    List DeadLetterEntry :=
  if maxEntries < entries.length then
    (List.insertionSort (fun a b => b.timestamp ≤ a.timestamp) entries).take maxEntries
  else entries

/-- enqueue, unnamed/part_004 lines 101-133: build the frozen entry
(an empty errorCode falls back to UNKNOWN_ERROR, mirroring
`errorCode || 'UNKNOWN_ERROR'`), push it, purge expired entries, trim
to the cap, persist (the persist helper at lines 66-76 catches and
swallows any storage failure, so its outcome is irrelevant to the
result), and return the stored entry.  The id generated at lines 49-50
from the clock and Math.random is an oracle argument. -/
def dlqEnqueue (opts : DLQOptions) (now : Int) (newId : String)
    (typ payload error errorCode source : String)
    (_persistOutcome : Except String Unit)
    (entries : List DeadLetterEntry) : List DeadLetterEntry × DeadLetterEntry :=
  let entry : DeadLetterEntry :=
    { id := newId
      type := typ
      payload := payload
      error := error
      errorCode := if errorCode = "" then "UNKNOWN_ERROR" else errorCode
      source := source
      timestamp := now
      retryCount := 0 }
  let entries1 := entries ++ [entry]
  let entries2 := cleanExpired opts.retentionPeriod now entries1
  let entries3 := enforceMaxSize opts.maxEntries entries2
  (entries3, entry)

instance : IsTotal DeadLetterEntry (fun a b => b.timestamp ≤ a.timestamp) :=
  ⟨fun x y => le_total y.timestamp x.timestamp⟩

instance : IsTrans DeadLetterEntry (fun a b => b.timestamp ≤ a.timestamp) :=
  ⟨fun _ _ _ hab hbc => le_trans hbc hab⟩

theorem enforceMaxSize_length_le (maxEntries : Nat) (entries : List DeadLetterEntry) :
    (enforceMaxSize maxEntries entries).length ≤ maxEntries := by
  simp only [enforceMaxSize]
  by_cases h : maxEntries < entries.length
  · rw [if_pos h]
    simp
  · rw [if_neg h]
    omega

theorem enforceMaxSize_subset (maxEntries : Nat) (entries : List DeadLetterEntry) :
    enforceMaxSize maxEntries entries ⊆ entries := by
  simp only [enforceMaxSize]
  by_cases h : maxEntries < entries.length
  · rw [if_pos h]
    exact fun a ha =>
      (List.perm_insertionSort _ entries).subset (List.take_subset _ _ ha)
  · rw [if_neg h]
    exact fun a ha => ha

theorem enforceMaxSize_drops_oldest (maxEntries : Nat) (entries : List DeadLetterEntry)
    (e : DeadLetterEntry) (he : e ∈ entries) (hdrop : e ∉ enforceMaxSize maxEntries entries) :
    ∀ f ∈ enforceMaxSize maxEntries entries, e.timestamp ≤ f.timestamp := by
  simp only [enforceMaxSize] at hdrop ⊢
  by_cases h : maxEntries < entries.length
  · rw [if_pos h] at hdrop ⊢
    intro f hf
    set sorted := List.insertionSort
      (fun a b : DeadLetterEntry => b.timestamp ≤ a.timestamp) entries with hsorted
    have hperm := List.perm_insertionSort
      (fun a b : DeadLetterEntry => b.timestamp ≤ a.timestamp) entries
    have hes : e ∈ sorted := hperm.mem_iff.mpr he
    have hsplit : sorted.take maxEntries ++ sorted.drop maxEntries = sorted :=
      List.take_append_drop maxEntries sorted
    have hpw : List.Pairwise (fun a b : DeadLetterEntry => b.timestamp ≤ a.timestamp) sorted :=
      List.sorted_insertionSort _ entries
    rw [← hsplit] at hpw hes
    rcases List.mem_append.mp hes with he1 | he2
    · exact absurd he1 hdrop
    · exact (List.pairwise_append.mp hpw).2.2 f hf e he2
  · rw [if_neg h] at hdrop
    exact absurd he hdrop

/-- Claim C9: enqueue appends the new entry, purges entries older than
the retention period, trims to at most maxEntries discarding only the
entries with the oldest timestamps, returns the stored entry, and never
throws: the result is the same whatever the persistence outcome is. -/
theorem dlq_enqueue_appends_purges_trims_never_throws
    (opts : DLQOptions) (now : Int) (newId typ payload err errorCode source : String)
    (p q : Except String Unit) (entries : List DeadLetterEntry) :
    dlqEnqueue opts now newId typ payload err errorCode source p entries =
      dlqEnqueue opts now newId typ payload err errorCode source q entries ∧
    (dlqEnqueue opts now newId typ payload err errorCode source p entries).2 =
      { id := newId
        type := typ
        payload := payload
        error := err
        errorCode := if errorCode = "" then "UNKNOWN_ERROR" else errorCode
        source := source
        timestamp := now
        retryCount := 0 } ∧
    (dlqEnqueue opts now newId typ payload err errorCode source p entries).1.length ≤
      opts.maxEntries ∧
    (∀ e ∈ (dlqEnqueue opts now newId typ payload err errorCode source p entries).1,
      now - opts.retentionPeriod < e.timestamp) ∧
    (∀ e ∈ (dlqEnqueue opts now newId typ payload err errorCode source p entries).1,
      e ∈ entries ++ [(dlqEnqueue opts now newId typ payload err errorCode source p entries).2]) ∧
    (∀ e ∈ cleanExpired opts.retentionPeriod now
        (entries ++ [(dlqEnqueue opts now newId typ payload err errorCode source p entries).2]),
      e ∉ (dlqEnqueue opts now newId typ payload err errorCode source p entries).1 →
      ∀ f ∈ (dlqEnqueue opts now newId typ payload err errorCode source p entries).1,
        e.timestamp ≤ f.timestamp) := by
  refine ⟨rfl, rfl, ?_, ?_, ?_, ?_⟩
  · exact enforceMaxSize_length_le opts.maxEntries _
  · intro e he
    have h2 := enforceMaxSize_subset opts.maxEntries _ he
    have h3 := List.of_mem_filter h2
    simp only [decide_eq_true_eq] at h3
    exact h3
  · intro e he
    have h2 := enforceMaxSize_subset opts.maxEntries _ he
    exact List.mem_of_mem_filter h2
  · intro e he hdrop f hf
    exact enforceMaxSize_drops_oldest opts.maxEntries _ e he hdrop f hf

-- ============================================================
-- Single-resource fetch, fetchResource, unnamed/part_005 lines 123-218.
-- ============================================================

/-- JS `s.toLowerCase()`. -/
def strToLower (s : String) : String := ⟨s.data.map Char.toLower⟩

/-- JS `s.includes(sub)`. -/
def strContains (s sub : String) : Bool :=
  (List.range (s.data.length + 1)).any
    (fun i => ((s.data.drop i).take sub.data.length) == sub.data)

/-- Content of a fetched resource: the text branch keeps the response
text, the binary branch is represented by its byte length (the bytes
matter only through the host base64 encoder, an oracle). -/
inductive ResourceContent where
  | text (s : String)
  | buffer (byteLength : Nat)
deriving DecidableEq, Repr

/-- Resource record, unnamed/part_005 lines 186-193. -/
structure Resource where
  url : String
  type : String
  content : ResourceContent
  mimeType : String
  inlined : Bool
  dataUri : String
deriving DecidableEq, Repr

/-- MIME_TYPES table, unnamed/part_005 lines 30-53. -/
def MIME_TYPES : List (String × String) :=
  [("css", "text/css"), ("js", "application/javascript"), ("mjs", "application/javascript"),
   ("png", "image/png"), ("jpg", "image/jpeg"), ("jpeg", "image/jpeg"), ("gif", "image/gif"),
   ("webp", "image/webp"), ("svg", "image/svg+xml"), ("ico", "image/x-icon"),
   ("woff", "font/woff"), ("woff2", "font/woff2"), ("ttf", "font/ttf"), ("otf", "font/otf"),
   ("eot", "application/vnd.ms-fontobject"), ("json", "application/json"),
   ("xml", "application/xml")]

/-- inferMimeType, unnamed/part_005 lines 60-68: the extension is the
last dot-separated piece of the parsed pathname, lowercased. -/
def inferMimeType (urlParse : String → Option ParsedUrl) (url : String) : String :=
  match urlParse url with
  | some p =>
    let ext := strToLower (((strSplitOn '.' p.pathname).getLast?).getD "")
    (MIME_TYPES.lookup ext).getD "application/octet-stream"
  | none => "application/octet-stream"

/-- getResourceType, unnamed/part_005 lines 76-82. -/
def getResourceType (mimeType : String) : String :=
  if strStartsWith mimeType "text/css" then "css"
  else if strContains mimeType "javascript" then "js"
  else if strStartsWith mimeType "image/" then "image"
  else if strStartsWith mimeType "font/" || strContains mimeType "font" then "font"
  else "other"

/-- createDataUri, unnamed/part_005 lines 104-113; the base64 encoding
(btoa and the text round-trip) is the oracle `base64`. -/
def createDataUri (base64 : ResourceContent → String) (content : ResourceContent)
    (mimeType : String) : String :=
  "data:" ++ mimeType ++ ";base64," ++ base64 content

/-- What the network hands back for one URL.  contentLength is the
parsed content-length header: none when the header is absent, empty or
not numeric (a NaN comparison in JS is false, matching none here). -/
structure NetResponse where
  ok : Bool
  status : Nat
  statusText : String
  contentType : Option String
  contentLength : Option Int
  textContent : String
  bodyByteLength : Nat
deriving DecidableEq, Repr

/-- Outcome of `withTimeout(fetch(normalizedUrl, ...), ...)` (lines
148-156): the race timed out, the fetch threw, or a response arrived. -/
inductive NetOutcome where
  | timeout
  | failed (msg : String)
  | resp (r : NetResponse)
deriving DecidableEq, Repr

/-- The slice of the scrape configuration fetchResource reads. -/
structure ScrapeConfig where
  resourceTimeout : Int
  maxResourceSize : Int
deriving DecidableEq, Repr

/-- Continuation of fetchOp after the declared-size check (lines
172-198). -/
def fetchOpBody (base64 : ResourceContent → String) (r : NetResponse) (cfg : ScrapeConfig)
    (normalizedUrl mimeType resourceType : String) : Except String Resource :=
  if resourceType = "css" ∨ resourceType = "js" then
    let content := ResourceContent.text r.textContent
    .ok { url := normalizedUrl
          type := resourceType
          content := content
          mimeType := mimeType
          inlined := true
          dataUri := createDataUri base64 content mimeType }
  else
    if cfg.maxResourceSize < (r.bodyByteLength : Int) then
      .error ("Resource too large: " ++ toString r.bodyByteLength ++ " bytes")
    else
      let content := ResourceContent.buffer r.bodyByteLength
      .ok { url := normalizedUrl
            type := resourceType
            content := content
            mimeType := mimeType
            inlined := true
            dataUri := createDataUri base64 content mimeType }

/-- The async operation passed to `breaker.execute`, unnamed/part_005
lines 147-198, without the final cache write (applied by the caller
model below exactly when the operation succeeds): timeout check, HTTP
status check, MIME/type classification, declared-size check against the
content-length header, text or binary download, actual-size recheck for
the binary branch, and construction of the frozen Resource. -/
def fetchOp (urlParse : String → Option ParsedUrl) (base64 : ResourceContent → String)
    (net : NetOutcome) (cfg : ScrapeConfig) (normalizedUrl : String) :
    Except String Resource :=
  match net with
  | .timeout => .error ("Timeout fetching " ++ normalizedUrl)
  | .failed msg => .error msg
  | .resp r =>
    if r.ok = false then
      .error ("HTTP " ++ toString r.status ++ ": " ++ r.statusText)
    else
      let contentType := r.contentType.getD (inferMimeType urlParse normalizedUrl)
      let mimeType := strTrim ((strSplitOn ';' contentType).headD "")
      let resourceType := getResourceType mimeType
      match r.contentLength with
      | some n =>
        if cfg.maxResourceSize < n then
          .error ("Resource too large: " ++ toString n ++ " bytes")
        else
          fetchOpBody base64 r cfg normalizedUrl mimeType resourceType
      | none => fetchOpBody base64 r cfg normalizedUrl mimeType resourceType

/-- The string form of each error code (core/types.js). -/
def errorCodeName : ErrorCode → String
  | .NETWORK_FAILURE => "NETWORK_FAILURE"
  | .FETCH_TIMEOUT => "FETCH_TIMEOUT"
  | .CORS_BLOCKED => "CORS_BLOCKED"
  | .PERMISSION_DENIED => "PERMISSION_DENIED"
  | .TAB_ACCESS_DENIED => "TAB_ACCESS_DENIED"
  | .SERIALIZATION_FAILED => "SERIALIZATION_FAILED"
  | .RESOURCE_TOO_LARGE => "RESOURCE_TOO_LARGE"
  | .INVALID_FORMAT => "INVALID_FORMAT"
  | .CIRCUIT_OPEN => "CIRCUIT_OPEN"
  | .UNKNOWN_ERROR => "UNKNOWN_ERROR"
  | .VALIDATION_ERROR => "VALIDATION_ERROR"

/-- Shared mutable state the fetcher reaches: the module-level resource
cache, the per-domain breakers (domain → breaker state; the registry
identity bookkeeping is in BreakerRegistry above), and the singleton
dead letter queue, unnamed/part_005 lines 17-25 and 203. -/
structure FetchState where
  cache : ResourceCache Resource
  breakers : List (String × CircuitBreaker)
  dlq : List DeadLetterEntry
deriving DecidableEq, Repr

/-- fetchResource, unnamed/part_005 lines 123-218: URL validation and
normalization, cache lookup, circuit-breaker-guarded network fetch,
cache store on success, dead-letter record on failure (the DLQ entry
carries the result's message and code; its metadata is not modelled).
Oracles: urlParse (host URL constructor), base64 (host btoa), net (the
network, keyed by normalized URL), normalize (the cache URL
normalizer), newId (DLQ id generator output). -/
def fetchResource (urlParse : String → Option ParsedUrl) (base64 : ResourceContent → String)
    (net : String → NetOutcome) (cbOpts : CircuitBreakerOptions)
    (cacheMaxSize : Nat) (cacheTtl : Int) (normalize : String → String)
    (dlqOpts : DLQOptions) (newId : String) (cfg : ScrapeConfig) (now : Int)
    (url : String) (st : FetchState) : FetchState × FetchOutcome Resource :=
  if url = "" then (st, .err "Invalid URL" .VALIDATION_ERROR)
  else
    match urlParse url with
    | none => (st, .err ("Invalid URL: " ++ url) .VALIDATION_ERROR)
    | some pu =>
      let normalizedUrl := pu.href
      let cached := cacheGet normalize cacheTtl now st.cache normalizedUrl
      match cached.1 with
      | some value => ({ st with cache := cached.2 }, .ok value)
      | none =>
        let st1 : FetchState := { st with cache := cached.2 }
        let domain := getDomain urlParse normalizedUrl
        let breaker := (st1.breakers.lookup domain).getD initialBreaker
        let op := fetchOp urlParse base64 (net normalizedUrl) cfg normalizedUrl
        let ex := execute cbOpts now op breaker
        let cache2 := match ex.2.1 with
          | .ok res => cacheSet normalize cacheMaxSize now st1.cache normalizedUrl res
          | .err _ _ => st1.cache
        let st2 : FetchState :=
          { st1 with cache := cache2, breakers := mapSet st1.breakers domain ex.1 }
        match ex.2.1 with
        | .ok res => (st2, .ok res)
        | .err m code =>
          let dq := dlqEnqueue dlqOpts now newId "RESOURCE_FETCH_FAILURE" normalizedUrl m
            (errorCodeName code) "fetchResource" (.ok ()) st2.dlq
          ({ st2 with dlq := dq.1 }, .err m code)

/-- Concrete URL parser oracle for the oversized-image scenario. -/
def exampleUrlParse : String → Option ParsedUrl := fun s =>
  if s = "https://example.com/big.png" then
    some { href := "https://example.com/big.png", pathname := "/big.png",
           hostname := "example.com" }
  else none

/-- Concrete network oracle: a 200 response declaring 100 bytes in its
content-length header but delivering a 5000-byte body. -/
def exampleNet : String → NetOutcome := fun _ =>
  .resp { ok := true
          status := 200
          statusText := "OK"
          contentType := some "image/png"
          contentLength := some 100
          textContent := ""
          bodyByteLength := 5000 }

/-- Claim C5, evaluated at the failing input: a resource whose declared
content-length (100) is within the 1000-byte budget but whose actual
downloaded size (5000) exceeds it.  fetchResource returns an Err whose
message is the thrown "Resource too large: 5000 bytes" but whose error
code is NETWORK_FAILURE, not RESOURCE_TOO_LARGE — the size throw happens
inside breaker.execute, whose catch (circuit-breaker.js lines 150-157)
wraps every thrown error as NETWORK_FAILURE — and the dead letter entry
records that same NETWORK_FAILURE code.  The resource is absent from the
cache, and the outcome carries no Resource value. -/
theorem fetch_actual_too_large_yields_network_failure_code :
    (fetchResource exampleUrlParse (fun _ => "") exampleNet ⟨3, 2, 30000, 60000⟩ 200 600000
        (fun s => s) ⟨500, 604800000⟩ "dlq_1" ⟨10000, 1000⟩ 50 "https://example.com/big.png"
        ⟨⟨[]⟩, [], []⟩).2 =
      .err "Resource too large: 5000 bytes" .NETWORK_FAILURE ∧
    (fetchResource exampleUrlParse (fun _ => "") exampleNet ⟨3, 2, 30000, 60000⟩ 200 600000
        (fun s => s) ⟨500, 604800000⟩ "dlq_1" ⟨10000, 1000⟩ 50 "https://example.com/big.png"
        ⟨⟨[]⟩, [], []⟩).1.cache.entries = [] ∧
    ((fetchResource exampleUrlParse (fun _ => "") exampleNet ⟨3, 2, 30000, 60000⟩ 200 600000
        (fun s => s) ⟨500, 604800000⟩ "dlq_1" ⟨10000, 1000⟩ 50 "https://example.com/big.png"
        ⟨⟨[]⟩, [], []⟩).1.dlq.map (fun e => (e.errorCode, e.error))) =
      [("NETWORK_FAILURE", "Resource too large: 5000 bytes")] := by
  refine ⟨?_, ?_, ?_⟩ <;> decide

-- ============================================================
-- Concurrent calls to fetchResource for one URL.
-- ============================================================

/-- Program counter of one in-progress fetchResource call, all for the
same not-yet-cached URL.  The atomic segments follow the await
boundaries of unnamed/part_005: `entry` is the synchronous prefix from
the call through validation, the cache miss (line 138) and
breaker.execute up to the point fetch() is issued inside the operation
(line 149); `inflight` is the suspension awaiting the response and its
body; the step to `done` covers the response processing, the cache
store (line 196) and the return.  fetchResource has no record of
pending requests: the pendingPromises in-flight table of memoizeAsync
(utils history lines 843-862) is imported at part_005 line 13 but never
applied to fetchResource. -/
inductive FetchPc where
  | entry
  | inflight
  | done
deriving DecidableEq, Repr

/-- Shared state of several concurrent fetchResource calls for one URL:
whether the resource cache holds the key yet, how many network requests
were issued in total, how many are in flight right now, and each
caller's program counter. -/
structure ConcurrentFetchState where
  cacheHas : Bool
  requestsIssued : Nat
  inflightCount : Nat
  callers : List FetchPc
deriving DecidableEq, Repr

/-- One cooperative step of caller i, following fetchResource's code: at
`entry`, a cache hit returns at once, a miss issues the network request;
at `inflight`, the response completes, the resource is cached, and the
call returns. -/
def fetchStep (s : ConcurrentFetchState) (i : Nat) : ConcurrentFetchState :=
  match s.callers.get? i with
  | some .entry =>
    if s.cacheHas then { s with callers := s.callers.set i .done }
    else
      { s with
        requestsIssued := s.requestsIssued + 1
        inflightCount := s.inflightCount + 1
        callers := s.callers.set i .inflight }
  | some .inflight =>
    { s with
      cacheHas := true
      inflightCount := s.inflightCount - 1
      callers := s.callers.set i .done }
  | _ => s

/-- Run a schedule: the event loop picks which caller advances next. -/
def fetchRun (s : ConcurrentFetchState) (sched : List Nat) : ConcurrentFetchState :=
  sched.foldl fetchStep s

/-- Claim C2, evaluated at the failing input: two concurrent
fetchResource calls for the same not-yet-cached URL, both reaching the
cache check before either completes (schedule 0 then 1).  Both miss the
cache and both issue a network request: two requests are in flight at
once for the same key, because fetchResource tracks completed cache
entries only, with no in-flight request table.  By contrast, when the
second caller only starts after the first fully completed (schedule
0, 0, then 1), the second hits the cache and only one request is ever
issued — the deduplication the code provides is completion-based, not
in-flight. -/
theorem fetchResource_concurrent_requests_not_deduplicated :
    fetchRun ⟨false, 0, 0, [.entry, .entry]⟩ [0, 1] =
      ⟨false, 2, 2, [.inflight, .inflight]⟩ ∧
    fetchRun ⟨false, 0, 0, [.entry, .entry]⟩ [0, 0, 1] =
      ⟨true, 1, 0, [.done, .done]⟩ := by
  constructor <;> decide

-- ============================================================
-- Resource graph resolver: discovery and inlining,
-- html-processor history file, and resolveUrl / shouldExclude of
-- unnamed/part_005.
-- ============================================================

/-- resolveUrl, unnamed/part_005 lines 263-279.  The oracle
`urlResolve rel base` models `new URL(rel, base).href`, none when that
constructor throws. -/
def resolveUrl (urlResolve : String → String → Option String)
    (relativeUrl baseUrl : String) : String :=
  if relativeUrl = "" then ""
  else if strStartsWith relativeUrl "http://" || strStartsWith relativeUrl "https://" ||
      strStartsWith relativeUrl "data:" || strStartsWith relativeUrl "blob:" then
    relativeUrl
  else
    match urlResolve relativeUrl baseUrl with
    | some href => href
    | none => relativeUrl

/-- shouldExclude, unnamed/part_005 lines 289-297: some pattern matches
the lowercased URL.  The glob-to-regex conversion and the regex test are
the host engine's, modelled by the matchesPattern oracle. -/
def shouldExclude (matchesPattern : String → String → Bool) (url : String)
    (patterns : List String) : Bool :=
  patterns.any (fun p => matchesPattern (strToLower url) p)

/-- Tokenized CSS for the RESOURCE_PATTERNS regex scans (html-processor
history lines 19-34): `text` pieces no pattern matches, `urlRef raw
quote url` one match of the cssUrl pattern carrying its exact matched
text and the two capture groups, `importRef raw quote url` one match of
the cssImport pattern.  The regex engine producing this tokenization is
the host's; the per-match logic below is the source's. -/
inductive CssTok where
  | text (raw : String)
  | urlRef (raw quote url : String)
  | importRef (raw quote url : String)
deriving DecidableEq, Repr

/-- The exact text a token occupies in the CSS. -/
def cssTokRaw : CssTok → String
  | .text raw => raw
  | .urlRef raw _ _ => raw
  | .importRef raw _ _ => raw

/-- The CSS text a token list denotes. -/
def renderCss (toks : List CssTok) : String :=
  strJoin "" (toks.map cssTokRaw)

/-- extractCssUrls, html-processor history lines 44-67: collect the
cssUrl capture groups, then the cssImport ones, keep those that are
nonempty and do not start with data:, resolve each against the base,
and deduplicate. -/
def extractCssUrls (urlResolve : String → String → Option String)
    (toks : List CssTok) (baseUrl : String) : List String :=
  let fromUrls :=
    ((toks.filterMap (fun t => match t with | .urlRef _ _ u => some u | _ => none)).filter
      (fun u => u ≠ "" && !(strStartsWith u "data:"))).map
      (fun u => resolveUrl urlResolve u baseUrl)
  let fromImports :=
    ((toks.filterMap (fun t => match t with | .importRef _ _ u => some u | _ => none)).filter
      (fun u => u ≠ "" && !(strStartsWith u "data:"))).map
      (fun u => resolveUrl urlResolve u baseUrl)
  unique (fromUrls ++ fromImports)

/-- The url() replace callback of inlineCssUrls, html-processor history
lines 82-93: a data: reference or one without a successful mapped
resource (with a nonempty dataUri) keeps its matched text, a resolved
one becomes `url(<quote><dataUri><quote>)`.  Text pieces and cssImport
matches are untouched by this pass. -/
def inlineCssUrlTok (urlResolve : String → String → Option String)
    (rmap : String → Option (FetchOutcome Resource)) (baseUrl : String) : CssTok → String
  | .text raw => raw
  | .importRef raw _ _ => raw
  | .urlRef raw quote url =>
    if strStartsWith url "data:" then raw
    else
      match rmap (resolveUrl urlResolve url baseUrl) with
      | some (.ok res) =>
        if res.dataUri ≠ "" then "url(" ++ quote ++ res.dataUri ++ quote ++ ")" else raw
      | _ => raw

/-- The first replace pass of inlineCssUrls (lines 82-93) over a whole
tokenized stylesheet. -/
def inlineCssUrlPass (urlResolve : String → String → Option String)
    (rmap : String → Option (FetchOutcome Resource)) (baseUrl : String)
    (toks : List CssTok) : String :=
  strJoin "" (toks.map (inlineCssUrlTok urlResolve rmap baseUrl))

/-- One srcset candidate rewritten by the srcset replace callback of
inlineHtmlResources, html-processor history lines 251-268: trim, split
into URL and descriptors on whitespace runs, swap the URL for the
mapped resource's data URI when one is resolved, and rejoin with single
spaces. -/
def inlineSrcsetCandidate (urlResolve : String → String → Option String)
    (rmap : String → Option (FetchOutcome Resource)) (baseUrl : String)
    (part : String) : String :=
  match strWords (strTrim part) with
  | [] => ""
  | u :: rest =>
    let url := resolveUrl urlResolve u baseUrl
    match rmap url with
    | some (.ok res) =>
      if res.dataUri ≠ "" then strJoin " " (res.dataUri :: rest) else strJoin " " (u :: rest)
    | _ => strJoin " " (u :: rest)

/-- The whole srcset attribute rewrite (lines 251-268): the callback
returns a rebuilt `srcset=<quote><candidates><quote>` string with the
candidates joined by comma-space, whether or not anything resolved. -/
def inlineSrcsetAttr (urlResolve : String → String → Option String)
    (rmap : String → Option (FetchOutcome Resource)) (baseUrl : String)
    (quote srcset : String) : String :=
  "srcset=" ++ quote ++
    strJoin ", " ((strSplitOn ',' srcset).map (inlineSrcsetCandidate urlResolve rmap baseUrl)) ++
    quote

/-- Tokenized HTML for the extractHtmlUrls regex scans (lines 127-192):
a stylesheet link match (either attribute order) with its href capture,
a src-attribute match with its element name and src capture, a srcset
attribute match, or unmatched text. -/
inductive HtmlTok where
  | text (raw : String)
  | linkStylesheet (raw href : String)
  | srcTag (raw tag src : String)
  | srcsetAttr (raw quote value : String)
deriving DecidableEq, Repr

/-- The four categories extractHtmlUrls returns (lines 128-133). -/
structure ExtractedUrls where
  stylesheets : List String
  scripts : List String
  images : List String
  other : List String
deriving DecidableEq, Repr

/-- The stylesheet href pass of extractHtmlUrls (lines 137-153, both
attribute orders): resolve, keep unless excluded.  No data:/blob:
filter is applied here. -/
def extractStylesheetUrls (urlResolve : String → String → Option String)
    (matchesPattern : String → String → Bool) (toks : List HtmlTok) (baseUrl : String)
    (excludePatterns : List String) : List String :=
  (toks.filterMap (fun t => match t with | .linkStylesheet _ href => some href | _ => none)).filterMap
    (fun href =>
      let url := resolveUrl urlResolve href baseUrl
      if shouldExclude matchesPattern url excludePatterns then none else some url)

/-- The src-attribute pass of extractHtmlUrls (lines 156-172): resolve
each src, drop it when the resolved URL starts with data: or is
excluded, and keep the element name for routing. -/
def extractSrcItems (urlResolve : String → String → Option String)
    (matchesPattern : String → String → Bool) (toks : List HtmlTok) (baseUrl : String)
    (excludePatterns : List String) : List (String × String) :=
  (toks.filterMap (fun t => match t with | .srcTag _ tag src => some (tag, src) | _ => none)).filterMap
    (fun p =>
      let url := resolveUrl urlResolve p.2 baseUrl
      if strStartsWith url "data:" || shouldExclude matchesPattern url excludePatterns then
        none
      else some (p.1, url))

/-- The srcset pass of extractHtmlUrls (lines 175-183): each candidate
URL is resolved and kept unless the resolved URL starts with data:. -/
def extractSrcsetUrls (urlResolve : String → String → Option String)
    (toks : List HtmlTok) (baseUrl : String) : List String :=
  (toks.filterMap (fun t => match t with | .srcsetAttr _ _ v => some v | _ => none)).flatMap
    (fun v =>
      ((strSplitOn ',' v).map (fun part =>
        resolveUrl urlResolve ((strWords (strTrim part)).headD "") baseUrl)).filter
        (fun u => !(strStartsWith u "data:")))

/-- extractHtmlUrls, html-processor history lines 127-192: stylesheet
hrefs are resolved and kept unless excluded; src attributes are
resolved, dropped when the resolved URL starts with data: or is
excluded, and routed to scripts (only when the configuration opts in),
images, or other by element; srcset candidates are resolved and kept as
images unless the resolved URL starts with data:; each category is
deduplicated. -/
def extractHtmlUrls (urlResolve : String → String → Option String)
    (matchesPattern : String → String → Bool) (toks : List HtmlTok) (baseUrl : String)
    (includeScripts : Bool) (excludePatterns : List String) : ExtractedUrls :=
  let srcProcessed := extractSrcItems urlResolve matchesPattern toks baseUrl excludePatterns
  { stylesheets :=
      unique (extractStylesheetUrls urlResolve matchesPattern toks baseUrl excludePatterns)
    scripts :=
      unique ((srcProcessed.filter (fun p => p.1 == "script")).filterMap
        (fun p => if includeScripts then some p.2 else none))
    images :=
      unique ((srcProcessed.filter (fun p => p.1 == "img")).map Prod.snd ++
        extractSrcsetUrls urlResolve toks baseUrl)
    other :=
      unique ((srcProcessed.filter (fun p => !(p.1 == "script") && !(p.1 == "img"))).map
        Prod.snd) }

theorem mem_extractSrcItems_no_data (urlResolve : String → String → Option String)
    (matchesPattern : String → String → Bool) (toks : List HtmlTok) (baseUrl : String)
    (excludePatterns : List String) (p : String × String)
    (hp : p ∈ extractSrcItems urlResolve matchesPattern toks baseUrl excludePatterns) :
    strStartsWith p.2 "data:" = false := by
  simp only [extractSrcItems, List.mem_filterMap] at hp
  obtain ⟨q, _, heq⟩ := hp
  by_cases hc : (strStartsWith (resolveUrl urlResolve q.2 baseUrl) "data:" ||
      shouldExclude matchesPattern (resolveUrl urlResolve q.2 baseUrl) excludePatterns) = true
  · rw [if_pos hc] at heq
    cases heq
  · rw [if_neg hc] at heq
    have h2 := Option.some.inj heq
    simp only [Bool.or_eq_true, not_or, Bool.not_eq_true] at hc
    rw [← h2]
    exact hc.1

theorem mem_extractSrcsetUrls_no_data (urlResolve : String → String → Option String)
    (toks : List HtmlTok) (baseUrl : String) (u : String)
    (hu : u ∈ extractSrcsetUrls urlResolve toks baseUrl) :
    strStartsWith u "data:" = false := by
  simp only [extractSrcsetUrls, List.mem_flatMap] at hu
  obtain ⟨v, _, hin⟩ := hu
  have := List.of_mem_filter hin
  simpa using this

/-- Claim C8 (amended): the src/srcset-derived categories of
extractHtmlUrls (scripts, images, other) never contain a URL starting
with data:, the check being applied to the resolved URL; extractCssUrls
only emits URLs obtained by resolving a reference whose own text is
nonempty and does not start with data:.  Nothing filters blob: URLs,
and the stylesheets category is not filtered at all (see the
counterexample theorem). -/
theorem discovery_data_filtering_by_category
    (urlResolve : String → String → Option String)
    (matchesPattern : String → String → Bool) (htoks : List HtmlTok) (ctoks : List CssTok)
    (baseUrl : String) (includeScripts : Bool) (excludePatterns : List String) (u : String) :
    (u ∈ (extractHtmlUrls urlResolve matchesPattern htoks baseUrl includeScripts
        excludePatterns).scripts → strStartsWith u "data:" = false) ∧
    (u ∈ (extractHtmlUrls urlResolve matchesPattern htoks baseUrl includeScripts
        excludePatterns).images → strStartsWith u "data:" = false) ∧
    (u ∈ (extractHtmlUrls urlResolve matchesPattern htoks baseUrl includeScripts
        excludePatterns).other → strStartsWith u "data:" = false) ∧
    (u ∈ extractCssUrls urlResolve ctoks baseUrl →
      ∃ raw q r, ((CssTok.urlRef raw q r) ∈ ctoks ∨ (CssTok.importRef raw q r) ∈ ctoks) ∧
        r ≠ "" ∧ strStartsWith r "data:" = false ∧ u = resolveUrl urlResolve r baseUrl) := by
  refine ⟨?_, ?_, ?_, ?_⟩
  · intro hu
    simp only [extractHtmlUrls] at hu
    have hu2 := ((mem_uniqueGo [] _ u).mp hu).1
    simp only [List.mem_filterMap] at hu2
    obtain ⟨p, hp, heq⟩ := hu2
    have hp2 := List.mem_of_mem_filter hp
    have hps := mem_extractSrcItems_no_data urlResolve matchesPattern htoks baseUrl
      excludePatterns p hp2
    by_cases hs : includeScripts = true
    · rw [if_pos hs] at heq
      rw [← Option.some.inj heq]
      exact hps
    · rw [if_neg hs] at heq
      cases heq
  · intro hu
    simp only [extractHtmlUrls] at hu
    have hu2 := ((mem_uniqueGo [] _ u).mp hu).1
    rcases List.mem_append.mp hu2 with h | h
    · simp only [List.mem_map] at h
      obtain ⟨p, hp, heq⟩ := h
      have hp2 := List.mem_of_mem_filter hp
      have hps := mem_extractSrcItems_no_data urlResolve matchesPattern htoks baseUrl
        excludePatterns p hp2
      rw [← heq]
      exact hps
    · exact mem_extractSrcsetUrls_no_data urlResolve htoks baseUrl u h
  · intro hu
    simp only [extractHtmlUrls] at hu
    have hu2 := ((mem_uniqueGo [] _ u).mp hu).1
    simp only [List.mem_map] at hu2
    obtain ⟨p, hp, heq⟩ := hu2
    have hp2 := List.mem_of_mem_filter hp
    have hps := mem_extractSrcItems_no_data urlResolve matchesPattern htoks baseUrl
      excludePatterns p hp2
    rw [← heq]
    exact hps
  · intro hu
    simp only [extractCssUrls] at hu
    have hu2 := ((mem_uniqueGo [] _ u).mp hu).1
    rcases List.mem_append.mp hu2 with h | h
    · simp only [List.mem_map, List.mem_filter, List.mem_filterMap] at h
      obtain ⟨r, ⟨⟨t, ht, hmt⟩, hflt⟩, heq⟩ := h
      rw [Bool.and_eq_true] at hflt
      have hr1 : r ≠ "" := by
        have := hflt.1
        simpa using this
      have hr2 : strStartsWith r "data:" = false := by
        have := hflt.2
        simpa using this
      cases t with
      | text raw => cases hmt
      | importRef raw q r0 => cases hmt
      | urlRef raw q r0 =>
        refine ⟨raw, q, r, Or.inl ?_, hr1, hr2, heq.symm⟩
        have hsome : some r0 = some r := hmt
        rw [← Option.some.inj hsome]
        exact ht
    · simp only [List.mem_map, List.mem_filter, List.mem_filterMap] at h
      obtain ⟨r, ⟨⟨t, ht, hmt⟩, hflt⟩, heq⟩ := h
      rw [Bool.and_eq_true] at hflt
      have hr1 : r ≠ "" := by
        have := hflt.1
        simpa using this
      have hr2 : strStartsWith r "data:" = false := by
        have := hflt.2
        simpa using this
      cases t with
      | text raw => cases hmt
      | urlRef raw q r0 => cases hmt
      | importRef raw q r0 =>
        refine ⟨raw, q, r, Or.inr ?_, hr1, hr2, heq.symm⟩
        have hsome : some r0 = some r := hmt
        rw [← Option.some.inj hsome]
        exact ht

/-- Witness for the C8 filtering theorem at a concrete page: one URL
referenced from a script tag, an img tag, an iframe tag and a CSS
url() token. -/
theorem discovery_data_filtering_by_category_witness :
    strStartsWith "https://x/a" "data:" = false ∧
    strStartsWith "https://x/a" "data:" = false ∧
    strStartsWith "https://x/a" "data:" = false ∧
    (∃ raw q r,
      ((CssTok.urlRef raw q r) ∈ [CssTok.urlRef "url(https://x/a)" "" "https://x/a"] ∨
        (CssTok.importRef raw q r) ∈ [CssTok.urlRef "url(https://x/a)" "" "https://x/a"]) ∧
      r ≠ "" ∧ strStartsWith r "data:" = false ∧
      "https://x/a" = resolveUrl (fun _ _ => none) r "https://x/") := by
  have h := discovery_data_filtering_by_category (fun _ _ => none) (fun _ _ => false)
    [HtmlTok.srcTag "<script src='https://x/a'" "script" "https://x/a",
     HtmlTok.srcTag "<img src='https://x/a'" "img" "https://x/a",
     HtmlTok.srcTag "<iframe src='https://x/a'" "iframe" "https://x/a"]
    [CssTok.urlRef "url(https://x/a)" "" "https://x/a"]
    "https://x/" true [] "https://x/a"
  exact ⟨h.1 (by decide), h.2.1 (by decide), h.2.2.1 (by decide), h.2.2.2 (by decide)⟩

/-- Counterexample for C8 as stated: extractCssUrls returns a blob: URL
as fetchable (only data: is filtered there), and extractHtmlUrls puts a
data: URL in its stylesheets category (link hrefs are not filtered at
all). -/
theorem discovery_returns_blob_and_stylesheet_data_urls :
    extractCssUrls (fun _ _ => none) [CssTok.urlRef "url(blob:abc)" "" "blob:abc"]
      "https://x/" = ["blob:abc"] ∧
    strStartsWith "blob:abc" "blob:" = true ∧
    (extractHtmlUrls (fun _ _ => none) (fun _ _ => false)
      [HtmlTok.linkStylesheet "<link rel=stylesheet href=data:text/css,x>" "data:text/css,x"]
      "https://x/" true []).stylesheets = ["data:text/css,x"] ∧
    strStartsWith "data:text/css,x" "data:" = true := by
  refine ⟨?_, ?_, ?_, ?_⟩ <;> decide

/-- Whether the map resolves a URL to a usable resource for inlining:
the condition `resource?.ok && resource.value.dataUri` of the replace
callbacks is false (no entry, a failure entry, or an empty dataUri). -/
def cssRefUnresolvedB (rmap : String → Option (FetchOutcome Resource)) (url : String) : Bool :=
  match rmap url with
  | some (.ok res) => res.dataUri == ""
  | _ => true

/-- Whether the url() pass leaves a token alone: text and @import
matches always, a url() match when its URL is a data: URL or is not
resolved by the map. -/
def cssTokUnresolvedB (urlResolve : String → String → Option String)
    (rmap : String → Option (FetchOutcome Resource)) (baseUrl : String) : CssTok → Bool
  | .urlRef _ _ url =>
    strStartsWith url "data:" || cssRefUnresolvedB rmap (resolveUrl urlResolve url baseUrl)
  | _ => true

theorem inlineCssUrlTok_unresolved (urlResolve : String → String → Option String)
    (rmap : String → Option (FetchOutcome Resource)) (baseUrl : String) (t : CssTok)
    (ht : cssTokUnresolvedB urlResolve rmap baseUrl t = true) :
    inlineCssUrlTok urlResolve rmap baseUrl t = cssTokRaw t := by
  cases t with
  | text raw => rfl
  | importRef raw q url => rfl
  | urlRef raw q url =>
    simp only [cssTokUnresolvedB, Bool.or_eq_true] at ht
    simp only [inlineCssUrlTok, cssTokRaw]
    by_cases hd : strStartsWith url "data:" = true
    · rw [if_pos hd]
    · rw [if_neg hd]
      have ht2 : cssRefUnresolvedB rmap (resolveUrl urlResolve url baseUrl) = true := by
        rcases ht with ht | ht
        · exact absurd ht hd
        · exact ht
      simp only [cssRefUnresolvedB] at ht2
      rcases hr : rmap (resolveUrl urlResolve url baseUrl) with _ | out
      · rfl
      · cases out with
        | ok res =>
          rw [hr] at ht2
          have hda : res.dataUri = "" := by simpa using ht2
          simp [hda]
        | err m c => rfl

/-- The text content a textual resource carries: css and js resources
store the response text (part_005 lines 174-175); binary buffers never
reach the textual substitution sites. -/
def contentString : ResourceContent → String
  | .text s => s
  | .buffer _ => ""

/-- Whether the condition `resource?.ok && resource.value.type === 'css'`
of the link and @import callbacks fails for a URL. -/
def cssResourceUnresolvedB (rmap : String → Option (FetchOutcome Resource))
    (url : String) : Bool :=
  match rmap url with
  | some (.ok res) => !(res.type == "css")
  | _ => true

/-- Whether the condition `resource?.ok && resource.value.type === 'js'`
of the script callback fails for a URL. -/
def jsResourceUnresolvedB (rmap : String → Option (FetchOutcome Resource))
    (url : String) : Bool :=
  match rmap url with
  | some (.ok res) => !(res.type == "js")
  | _ => true

/-- Whether the full inliner leaves a token alone: text always, a url()
match when its URL is a data: URL or is not resolved, an @import match
when its URL is a data: URL or does not resolve to a successful css
resource. -/
def cssTokUntouchedB (urlResolve : String → String → Option String)
    (rmap : String → Option (FetchOutcome Resource)) (baseUrl : String) : CssTok → Bool
  | .text _ => true
  | .urlRef _ _ url =>
    strStartsWith url "data:" || cssRefUnresolvedB rmap (resolveUrl urlResolve url baseUrl)
  | .importRef _ _ url =>
    strStartsWith url "data:" ||
      cssResourceUnresolvedB rmap (resolveUrl urlResolve url baseUrl)

/-- One token under both replace passes of inlineCssUrls: the cssUrl
callback (html-processor history lines 82-93) on url() matches and the
cssImport callback (lines 96-113) on @import matches, the latter
recursing into the imported stylesheet's text through `f`.  On a token
stream the two sequential string passes act on disjoint matches, so
they amount to this one map with the callback chosen by token kind. -/
def inlineCssTokWith (f : String → String → String)
    (urlResolve : String → String → Option String)
    (rmap : String → Option (FetchOutcome Resource)) (baseUrl : String) : CssTok → String
  | .text raw => raw
  | .urlRef raw quote url => inlineCssUrlTok urlResolve rmap baseUrl (.urlRef raw quote url)
  | .importRef raw _quote url =>
    if strStartsWith url "data:" then raw
    else
      match rmap (resolveUrl urlResolve url baseUrl) with
      | some (.ok res) =>
        if res.type = "css" then
          "/* Inlined from " ++ url ++ " */\n" ++
            f (contentString res.content) (resolveUrl urlResolve url baseUrl)
        else raw
      | _ => raw

/-- inlineCssUrls, html-processor history lines 78-116, on a stylesheet
string: both replace passes over the host regex engine's tokenization,
recursing into resolved @import content.  The source recursion is
unbounded (it relies on the resolved import graph being acyclic); the
model bounds its depth with fuel and returns the text unprocessed when
fuel runs out. -/
def inlineCssUrls (tokenize : String → List CssTok)
    (urlResolve : String → String → Option String)
    (rmap : String → Option (FetchOutcome Resource)) :
    Nat → String → String → String
  | 0, css, _ => css
  | fuel + 1, css, baseUrl =>
    strJoin "" ((tokenize css).map
      (inlineCssTokWith (inlineCssUrls tokenize urlResolve rmap fuel) urlResolve rmap baseUrl))

/-- The link-stylesheet replace callback of inlineHtmlResources,
html-processor history lines 210-227: the matched tag text is kept when
its attributes contain no href (the inner href regex result is the
hrefMatch argument, captured quote and URL) or when the href does not
resolve to a successful css resource; otherwise the tag becomes an
inline style block containing the recursively inlined stylesheet
text. -/
def inlineLinkTag (tokenize : String → List CssTok)
    (urlResolve : String → String → Option String)
    (rmap : String → Option (FetchOutcome Resource)) (fuel : Nat)
    (baseUrl raw : String) (hrefMatch : Option (String × String)) : String :=
  match hrefMatch with
  | none => raw
  | some hm =>
    let url := resolveUrl urlResolve hm.2 baseUrl
    match rmap url with
    | some (.ok res) =>
      if res.type = "css" then
        "<style data-original-href=\"" ++ url ++ "\">\n" ++
          inlineCssUrls tokenize urlResolve rmap fuel (contentString res.content) url ++
          "\n</style>"
      else raw
    | _ => raw

/-- The img replace callback, html-processor history lines 232-247: the
matched tag text is pre ++ srcAttr ++ post, where srcAttr is the first
piece matched by the inner src-attribute regex (this decomposition is
the host regex engine's).  A data: src or an unresolved URL keeps the
tag unchanged; a resolved one has its src attribute rewritten to the
data URI with a data-original-src marker. -/
def inlineImgTag (urlResolve : String → String → Option String)
    (rmap : String → Option (FetchOutcome Resource))
    (baseUrl pre srcAttr post quote src : String) : String :=
  if strStartsWith src "data:" then pre ++ srcAttr ++ post
  else
    let url := resolveUrl urlResolve src baseUrl
    match rmap url with
    | some (.ok res) =>
      if res.dataUri ≠ "" then
        pre ++ "src=" ++ quote ++ res.dataUri ++ quote ++ " data-original-src=\"" ++ url ++
          "\"" ++ post
      else pre ++ srcAttr ++ post
    | _ => pre ++ srcAttr ++ post

/-- The script replace callback, html-processor history lines 271-285:
the pass only runs when the configuration opts scripts in (otherwise
every tag keeps its text); a matched external script whose URL resolves
to a successful js resource becomes an inline script with the fetched
text, anything else keeps its matched text. -/
def inlineScriptTag (includeScripts : Bool)
    (urlResolve : String → String → Option String)
    (rmap : String → Option (FetchOutcome Resource))
    (baseUrl raw src : String) : String :=
  if includeScripts = false then raw
  else
    let url := resolveUrl urlResolve src baseUrl
    match rmap url with
    | some (.ok res) =>
      if res.type = "js" then
        "<script data-original-src=\"" ++ url ++ "\">\n" ++ contentString res.content ++
          "\n</script>"
      else raw
    | _ => raw

/-- The inline-style replace callback, html-processor history lines
288-294: the style attribute value is run through inlineCssUrls and the
attribute is rebuilt as `style=<quote><newStyle><quote>`, whether or
not anything was substituted. -/
def inlineStyleAttr (tokenize : String → List CssTok)
    (urlResolve : String → String → Option String)
    (rmap : String → Option (FetchOutcome Resource)) (fuel : Nat)
    (baseUrl quote style : String) : String :=
  "style=" ++ quote ++ inlineCssUrls tokenize urlResolve rmap fuel style baseUrl ++ quote

theorem inlineCssTokWith_untouched (f : String → String → String)
    (urlResolve : String → String → Option String)
    (rmap : String → Option (FetchOutcome Resource)) (baseUrl : String) (t : CssTok)
    (ht : cssTokUntouchedB urlResolve rmap baseUrl t = true) :
    inlineCssTokWith f urlResolve rmap baseUrl t = cssTokRaw t := by
  cases t with
  | text raw => rfl
  | urlRef raw quote url =>
    exact inlineCssUrlTok_unresolved urlResolve rmap baseUrl (.urlRef raw quote url) ht
  | importRef raw quote url =>
    simp only [cssTokUntouchedB, Bool.or_eq_true] at ht
    simp only [inlineCssTokWith, cssTokRaw]
    by_cases hd : strStartsWith url "data:" = true
    · rw [if_pos hd]
    · rw [if_neg hd]
      have ht2 : cssResourceUnresolvedB rmap (resolveUrl urlResolve url baseUrl) = true := by
        rcases ht with ht | ht
        · exact absurd ht hd
        · exact ht
      simp only [cssResourceUnresolvedB] at ht2
      rcases hr : rmap (resolveUrl urlResolve url baseUrl) with _ | out
      · rfl
      · cases out with
        | ok res =>
          rw [hr] at ht2
          have hnc : res.type ≠ "css" := by simpa using ht2
          show (if res.type = "css" then
              "/* Inlined from " ++ url ++ " */\n" ++
                f (contentString res.content) (resolveUrl urlResolve url baseUrl)
            else raw) = raw
          rw [if_neg hnc]
        | err m c => rfl

theorem inlineCssUrls_untouched (tokenize : String → List CssTok)
    (urlResolve : String → String → Option String)
    (rmap : String → Option (FetchOutcome Resource)) (fuel : Nat) (css baseUrl : String)
    (hfaith : renderCss (tokenize css) = css)
    (hall : ∀ t ∈ tokenize css, cssTokUntouchedB urlResolve rmap baseUrl t = true) :
    inlineCssUrls tokenize urlResolve rmap (fuel + 1) css baseUrl = css := by
  show strJoin "" ((tokenize css).map
    (inlineCssTokWith (inlineCssUrls tokenize urlResolve rmap fuel) urlResolve rmap
      baseUrl)) = css
  rw [List.map_congr_left (fun t ht =>
    inlineCssTokWith_untouched (inlineCssUrls tokenize urlResolve rmap fuel)
      urlResolve rmap baseUrl t (hall t ht))]
  exact hfaith

/-- Claim C6 (amended): each rewrite pass of the inliner leaves a
reference whose URL is not resolved by the map textually unchanged and
replaces a resolved one with its embedded form — the url() pass of
inlineCssUrls keeps a whole stylesheet unchanged when nothing in it
resolves and turns a resolved url() reference into the data URI form;
the link pass keeps the tag (no href, or no successful css resource)
and otherwise becomes an inline style block with the recursively
inlined stylesheet; the img pass keeps the tag (data: src or
unresolved) and otherwise rewrites only its src attribute to the data
URI; the script pass keeps the tag (pass disabled, or no successful js
resource) and otherwise inlines the fetched script text.  The srcset
rewrite keeps the URL text of every unresolved candidate (and swaps a
resolved one for the data URI), and the inline-style rewrite keeps the
CSS text when nothing in it resolves — but both re-serialize their
attribute (trim/split/join for srcset, a rebuilt style=... for the
style attribute), so the attribute as a whole is not byte-identical
(see the counterexample theorem). -/
theorem inlining_keeps_unresolved_references
    (tokenize : String → List CssTok)
    (urlResolve : String → String → Option String)
    (rmap : String → Option (FetchOutcome Resource)) (baseUrl : String)
    (toks : List CssTok)
    (raw2 quote2 url2 part part2 u v : String) (rest rest2 : List String) (res : Resource)
    (fuel : Nat) (rawL qL hrefL qC hrefC : String) (resC : Resource)
    (pre srcAttr post qI srcI pre2 srcAttr2 post2 qI2 : String)
    (rawS srcS rawS2 srcS2 rawS3 srcJ : String) (resJ : Resource)
    (qSt style : String)
    (hall : ∀ t ∈ toks, cssTokUnresolvedB urlResolve rmap baseUrl t = true)
    (hw : strWords (strTrim part) = u :: rest)
    (hu : cssRefUnresolvedB rmap (resolveUrl urlResolve u baseUrl) = true)
    (hd2 : strStartsWith url2 "data:" = false)
    (hres : rmap (resolveUrl urlResolve url2 baseUrl) = some (.ok res))
    (hdu : res.dataUri ≠ "")
    (hw2 : strWords (strTrim part2) = v :: rest2)
    (hres2 : rmap (resolveUrl urlResolve v baseUrl) = some (.ok res))
    (hL : cssResourceUnresolvedB rmap (resolveUrl urlResolve hrefL baseUrl) = true)
    (hresC : rmap (resolveUrl urlResolve hrefC baseUrl) = some (.ok resC))
    (hCss : resC.type = "css")
    (hdI : strStartsWith srcI "data:" = false)
    (hI : cssRefUnresolvedB rmap (resolveUrl urlResolve srcI baseUrl) = true)
    (hS : jsResourceUnresolvedB rmap (resolveUrl urlResolve srcS baseUrl) = true)
    (hresJ : rmap (resolveUrl urlResolve srcJ baseUrl) = some (.ok resJ))
    (hJs : resJ.type = "js")
    (hfaithSt : renderCss (tokenize style) = style)
    (hallSt : ∀ t ∈ tokenize style, cssTokUntouchedB urlResolve rmap baseUrl t = true) :
    inlineCssUrlPass urlResolve rmap baseUrl toks = renderCss toks ∧
    inlineSrcsetCandidate urlResolve rmap baseUrl part = strJoin " " (u :: rest) ∧
    inlineCssUrlTok urlResolve rmap baseUrl (.urlRef raw2 quote2 url2) =
      "url(" ++ quote2 ++ res.dataUri ++ quote2 ++ ")" ∧
    inlineSrcsetCandidate urlResolve rmap baseUrl part2 = strJoin " " (res.dataUri :: rest2) ∧
    inlineLinkTag tokenize urlResolve rmap fuel baseUrl rawL none = rawL ∧
    inlineLinkTag tokenize urlResolve rmap fuel baseUrl rawL (some (qL, hrefL)) = rawL ∧
    inlineLinkTag tokenize urlResolve rmap fuel baseUrl rawL (some (qC, hrefC)) =
      "<style data-original-href=\"" ++ resolveUrl urlResolve hrefC baseUrl ++ "\">\n" ++
        inlineCssUrls tokenize urlResolve rmap fuel (contentString resC.content)
          (resolveUrl urlResolve hrefC baseUrl) ++ "\n</style>" ∧
    inlineImgTag urlResolve rmap baseUrl pre srcAttr post qI srcI =
      pre ++ srcAttr ++ post ∧
    inlineImgTag urlResolve rmap baseUrl pre2 srcAttr2 post2 qI2 url2 =
      pre2 ++ "src=" ++ qI2 ++ res.dataUri ++ qI2 ++ " data-original-src=\"" ++
        resolveUrl urlResolve url2 baseUrl ++ "\"" ++ post2 ∧
    inlineScriptTag true urlResolve rmap baseUrl rawS srcS = rawS ∧
    inlineScriptTag false urlResolve rmap baseUrl rawS2 srcS2 = rawS2 ∧
    inlineScriptTag true urlResolve rmap baseUrl rawS3 srcJ =
      "<script data-original-src=\"" ++ resolveUrl urlResolve srcJ baseUrl ++ "\">\n" ++
        contentString resJ.content ++ "\n</script>" ∧
    inlineStyleAttr tokenize urlResolve rmap (fuel + 1) baseUrl qSt style =
      "style=" ++ qSt ++ style ++ qSt := by
  refine ⟨?_, ?_, ?_, ?_, ?_, ?_, ?_, ?_, ?_, ?_, ?_, ?_, ?_⟩
  · simp only [inlineCssUrlPass, renderCss]
    congr 1
    exact List.map_congr_left
      (fun t ht => inlineCssUrlTok_unresolved urlResolve rmap baseUrl t (hall t ht))
  · simp only [inlineSrcsetCandidate, hw]
    simp only [cssRefUnresolvedB] at hu
    rcases hr : rmap (resolveUrl urlResolve u baseUrl) with _ | out
    · rfl
    · cases out with
      | ok r0 =>
        rw [hr] at hu
        have hda : r0.dataUri = "" := by simpa using hu
        simp [hda]
      | err m c => rfl
  · simp only [inlineCssUrlTok]
    rw [if_neg (by simp [hd2]), hres]
    show (if res.dataUri ≠ "" then "url(" ++ quote2 ++ res.dataUri ++ quote2 ++ ")"
        else raw2) =
      "url(" ++ quote2 ++ res.dataUri ++ quote2 ++ ")"
    rw [if_pos hdu]
  · simp only [inlineSrcsetCandidate, hw2]
    rw [hres2]
    show (if res.dataUri ≠ "" then strJoin " " (res.dataUri :: rest2)
        else strJoin " " (v :: rest2)) =
      strJoin " " (res.dataUri :: rest2)
    rw [if_pos hdu]
  · rfl
  · simp only [inlineLinkTag]
    simp only [cssResourceUnresolvedB] at hL
    rcases hr : rmap (resolveUrl urlResolve hrefL baseUrl) with _ | out
    · rfl
    · cases out with
      | ok r0 =>
        rw [hr] at hL
        have hnc : r0.type ≠ "css" := by simpa using hL
        show (if r0.type = "css" then
            "<style data-original-href=\"" ++ resolveUrl urlResolve hrefL baseUrl ++
              "\">\n" ++
              inlineCssUrls tokenize urlResolve rmap fuel (contentString r0.content)
                (resolveUrl urlResolve hrefL baseUrl) ++ "\n</style>"
          else rawL) = rawL
        rw [if_neg hnc]
      | err m c => rfl
  · simp only [inlineLinkTag]
    rw [hresC]
    show (if resC.type = "css" then
        "<style data-original-href=\"" ++ resolveUrl urlResolve hrefC baseUrl ++
          "\">\n" ++
          inlineCssUrls tokenize urlResolve rmap fuel (contentString resC.content)
            (resolveUrl urlResolve hrefC baseUrl) ++ "\n</style>"
      else rawL) = _
    rw [if_pos hCss]
  · simp only [inlineImgTag]
    rw [if_neg (by simp [hdI])]
    simp only [cssRefUnresolvedB] at hI
    rcases hr : rmap (resolveUrl urlResolve srcI baseUrl) with _ | out
    · rfl
    · cases out with
      | ok r0 =>
        rw [hr] at hI
        have hda : r0.dataUri = "" := by simpa using hI
        simp [hda]
      | err m c => rfl
  · simp only [inlineImgTag]
    rw [if_neg (by simp [hd2]), hres]
    show (if res.dataUri ≠ "" then
        pre2 ++ "src=" ++ qI2 ++ res.dataUri ++ qI2 ++ " data-original-src=\"" ++
          resolveUrl urlResolve url2 baseUrl ++ "\"" ++ post2
      else pre2 ++ srcAttr2 ++ post2) = _
    rw [if_pos hdu]
  · simp only [inlineScriptTag]
    rw [if_neg (by simp)]
    simp only [jsResourceUnresolvedB] at hS
    rcases hr : rmap (resolveUrl urlResolve srcS baseUrl) with _ | out
    · rfl
    · cases out with
      | ok r0 =>
        rw [hr] at hS
        have hnj : r0.type ≠ "js" := by simpa using hS
        show (if r0.type = "js" then
            "<script data-original-src=\"" ++ resolveUrl urlResolve srcS baseUrl ++
              "\">\n" ++ contentString r0.content ++ "\n</script>"
          else rawS) = rawS
        rw [if_neg hnj]
      | err m c => rfl
  · rfl
  · simp only [inlineScriptTag]
    rw [if_neg (by simp), hresJ]
    show (if resJ.type = "js" then
        "<script data-original-src=\"" ++ resolveUrl urlResolve srcJ baseUrl ++
          "\">\n" ++ contentString resJ.content ++ "\n</script>"
      else rawS3) = _
    rw [if_pos hJs]
  · simp only [inlineStyleAttr]
    rw [inlineCssUrls_untouched tokenize urlResolve rmap fuel style baseUrl hfaithSt hallSt]

/-- A successfully fetched image resource used by concrete instances. -/
def exampleResource : Resource :=
  { url := "https://x/ok.png"
    type := "image"
    content := .buffer 3
    mimeType := "image/png"
    inlined := true
    dataUri := "data:image/png;base64,QUJD" }

/-- A successfully fetched stylesheet resource. -/
def exampleCssResource : Resource :=
  { url := "https://x/s.css"
    type := "css"
    content := .text "h1 red"
    mimeType := "text/css"
    inlined := true
    dataUri := "data:text/css;base64,QQ==" }

/-- A successfully fetched script resource. -/
def exampleJsResource : Resource :=
  { url := "https://x/a.js"
    type := "js"
    content := .text "console.log(1)"
    mimeType := "application/javascript"
    inlined := true
    dataUri := "data:application/javascript;base64,QQ==" }

/-- A concrete resolved map: one image, one stylesheet, one script. -/
def exampleMap : String → Option (FetchOutcome Resource) := fun s =>
  if s = "https://x/ok.png" then some (.ok exampleResource)
  else if s = "https://x/s.css" then some (.ok exampleCssResource)
  else if s = "https://x/a.js" then some (.ok exampleJsResource)
  else none

/-- Witness for the C6 theorem at concrete inputs: under exampleMap, a
stylesheet whose one url() reference stays unresolved, unresolved and
resolved srcset candidates, link tags with a missing and a resolved
stylesheet, img tags with an unresolved and a resolved src, script tags
unresolved, disabled and resolved, and a style attribute whose CSS
stays unchanged inside the rebuilt attribute. -/
theorem inlining_keeps_unresolved_references_witness :
    inlineCssUrlPass (fun _ _ => none) exampleMap "https://x/"
        [CssTok.text "body ", CssTok.urlRef "url(a.png)" "" "a.png", CssTok.text ";"] =
      renderCss [CssTok.text "body ", CssTok.urlRef "url(a.png)" "" "a.png",
        CssTok.text ";"] ∧
    inlineSrcsetCandidate (fun _ _ => none) exampleMap "https://x/" "b.png 1x" =
      strJoin " " ["b.png", "1x"] ∧
    inlineCssUrlTok (fun _ _ => none) exampleMap "https://x/"
        (.urlRef "url(https://x/ok.png)" "" "https://x/ok.png") =
      "url(" ++ "" ++ exampleResource.dataUri ++ "" ++ ")" ∧
    inlineSrcsetCandidate (fun _ _ => none) exampleMap "https://x/"
        "https://x/ok.png 2x" =
      strJoin " " [exampleResource.dataUri, "2x"] ∧
    inlineLinkTag (fun s => [CssTok.text s]) (fun _ _ => none) exampleMap 1 "https://x/"
        "<link rel=stylesheet href=m.css>" none = "<link rel=stylesheet href=m.css>" ∧
    inlineLinkTag (fun s => [CssTok.text s]) (fun _ _ => none) exampleMap 1 "https://x/"
        "<link rel=stylesheet href=m.css>" (some ("\"", "m.css")) =
      "<link rel=stylesheet href=m.css>" ∧
    inlineLinkTag (fun s => [CssTok.text s]) (fun _ _ => none) exampleMap 1 "https://x/"
        "<link rel=stylesheet href=m.css>" (some ("\"", "https://x/s.css")) =
      "<style data-original-href=\"" ++
        resolveUrl (fun _ _ => none) "https://x/s.css" "https://x/" ++ "\">\n" ++
        inlineCssUrls (fun s => [CssTok.text s]) (fun _ _ => none) exampleMap 1
          (contentString exampleCssResource.content)
          (resolveUrl (fun _ _ => none) "https://x/s.css" "https://x/") ++
        "\n</style>" ∧
    inlineImgTag (fun _ _ => none) exampleMap "https://x/" "<img " "src=m.png" ">"
        "\"" "m.png" =
      "<img " ++ "src=m.png" ++ ">" ∧
    inlineImgTag (fun _ _ => none) exampleMap "https://x/" "<img id=a " "src=old" ">"
        "\"" "https://x/ok.png" =
      "<img id=a " ++ "src=" ++ "\"" ++ exampleResource.dataUri ++ "\"" ++
        " data-original-src=\"" ++
        resolveUrl (fun _ _ => none) "https://x/ok.png" "https://x/" ++ "\"" ++ ">" ∧
    inlineScriptTag true (fun _ _ => none) exampleMap "https://x/"
        "<script src=m.js></script>" "m.js" = "<script src=m.js></script>" ∧
    inlineScriptTag false (fun _ _ => none) exampleMap "https://x/"
        "<script src=n.js></script>" "n.js" = "<script src=n.js></script>" ∧
    inlineScriptTag true (fun _ _ => none) exampleMap "https://x/"
        "<script src=a.js></script>" "https://x/a.js" =
      "<script data-original-src=\"" ++
        resolveUrl (fun _ _ => none) "https://x/a.js" "https://x/" ++ "\">\n" ++
        contentString exampleJsResource.content ++ "\n</script>" ∧
    inlineStyleAttr (fun s => [CssTok.text s]) (fun _ _ => none) exampleMap (1 + 1)
        "https://x/" "'" "color:red" =
      "style=" ++ "'" ++ "color:red" ++ "'" :=
  inlining_keeps_unresolved_references (fun s => [CssTok.text s]) (fun _ _ => none)
    exampleMap "https://x/"
    [CssTok.text "body ", CssTok.urlRef "url(a.png)" "" "a.png", CssTok.text ";"]
    "url(https://x/ok.png)" "" "https://x/ok.png" "b.png 1x" "https://x/ok.png 2x"
    "b.png" "https://x/ok.png" ["1x"] ["2x"] exampleResource
    1 "<link rel=stylesheet href=m.css>" "\"" "m.css" "\"" "https://x/s.css"
    exampleCssResource
    "<img " "src=m.png" ">" "\"" "m.png" "<img id=a " "src=old" ">" "\""
    "<script src=m.js></script>" "m.js" "<script src=n.js></script>" "n.js"
    "<script src=a.js></script>" "https://x/a.js" exampleJsResource
    "'" "color:red"
    (by decide) (by decide) (by decide) (by decide) (by decide) (by decide) (by decide)
    (by decide) (by decide) (by decide) (by decide) (by decide) (by decide) (by decide)
    (by decide) (by decide) (by decide) (by decide)

/-- Counterexample for C6 as stated: an srcset attribute whose two
candidate URLs are both unresolved (the map is empty) is still
re-serialized — a comma-space separator replaces the bare comma — so
the reference is not left textually unchanged. -/
theorem srcset_rewrite_alters_unresolved_attribute :
    inlineSrcsetAttr (fun _ _ => none) (fun _ => none) "https://x/" "\"" "a.png,b.png" =
      "srcset=" ++ "\"" ++ "a.png, b.png" ++ "\"" ∧
    inlineSrcsetAttr (fun _ _ => none) (fun _ => none) "https://x/" "\"" "a.png,b.png" ≠
      "srcset=" ++ "\"" ++ "a.png,b.png" ++ "\"" := by
  constructor <;> decide
